import Mathlib

/-!
Shallow embedding of the Gen 1 sound core of the pokemon-synthesizer
repository.

Source files embedded:
  * `src/command.rs`      — command decoder (`FromI4::from_i4`, `Command`,
    `Command::parse`, `Command::len`);
  * `src/gen1/channel.rs` — per-channel state machine (`ChannelIterator`
    and its `Iterator::next`, `calc_duty`, `sample`, `only_fadeout_left`,
    `reset_pitch`);
  * `src/gen2/sound.rs`   — the mixer (`SoundIterator::new`,
    `Iterator::next`, `Iterator::count`), the only mixer in `src/` with a
    `next`/`count` pair; its channels are modelled by the
    `gen1/channel.rs` iterator, the only channel iterator of that shape
    in `src/`;
  * `src/gen1/mod.rs`     — the façade (`Pcm::total_duration`).

Machine integers are modelled as `Nat` (unsigned) or `Int` (signed) with
explicit `% 2 ^ w` at the points where the Rust code wraps; `f32`/`f64`
sample and phase arithmetic is modelled over `ℚ` (the properties proved
about it are exact range facts that do not depend on rounding); fallible
paths (`panic!`, `todo!`, out-of-bounds ROM reads) are modelled with
`Option`, `none` standing for an abort.  The ROM is a `List Nat` of bytes;
`byteAt` masks each fetched byte by 256, encoding the `u8` type invariant
of a Rust `&[u8]`.
-/

/-- Number of samples in one channel frame (`SAMPLES_PER_FRAME`). -/
def SAMPLES_PER_FRAME : Nat := 17556

/-- Native sample rate in Hz (`SOURCE_SAMPLE_RATE`). -/
def SOURCE_SAMPLE_RATE : Nat := 1048576

/-- Fetch one ROM byte; `none` models the panic of an out-of-bounds
slice index.  The `% 256` records that Rust ROM bytes are `u8`. -/
def byteAt (rom : List Nat) (pos : Nat) : Option Nat :=
  (rom[pos]?).map (fun b => b % 256)

/-- The twelve note names of `enum Note` in `src/command.rs` (renamed
from `Note` to avoid clashing with the `Command::Note` variant). -/
inductive NoteName where
  | CFlat | CSharp | DFlat | DSharp | EFlat | FFlat
  | FSharp | GFlat | GSharp | AFlat | ASharp | BFlat
  deriving DecidableEq, Repr

/-- Channel kinds (`enum ChannelType` in `src/gen1/channel.rs`). -/
inductive ChannelType where
  | MusicPulse | MusicWave | MusicNoise | SfxPulse | SfxWave | SfxNoise
  deriving DecidableEq, Repr

/-- `ChannelType::to_muisc` (sic): demote an SFX kind to its music
counterpart; music kinds are fixed points. -/
def ChannelType.to_muisc : ChannelType → ChannelType
  | .MusicPulse => .MusicPulse
  | .MusicWave => .MusicWave
  | .MusicNoise => .MusicNoise
  | .SfxPulse => .MusicPulse
  | .SfxWave => .MusicWave
  | .SfxNoise => .MusicNoise

/-- `<i8 as FromI4>::from_i4` in `src/command.rs`: signed-magnitude
nibble decode — low three bits are the magnitude, bit 3 the sign. -/
def from_i4 (data : Nat) : Int :=
  let value : Int := (data % 8 : Nat)
  if data &&& 8 = 0 then value else -value

/-- `enum Command` of `src/command.rs`, with the same variants and
payloads (u8/u16 payloads as `Nat`, signed-magnitude nibbles as `Int`). -/
inductive Command where
  | PitchSweep (length : Nat) (change : Int)
  | SquareNote (length volume : Nat) (fade : Int) (freq : Nat)
  | NoiseNote (length volume : Nat) (fade : Int) (value : Nat)
  | Note (pitch : NoteName) (length : Nat)
  | DrumNote (instrument length : Nat)
  | Rest (length : Nat)
  | NoteType (speed volume : Nat) (fade : Int)
  | DrumSpeed (speed : Nat)
  | Octave (octave : Nat)
  | TogglePerfectPitch
  | Vibrato (delay depth rate : Nat)
  | PitchSlide (length octave pitch : Nat)
  | DutyCycle (a : Nat)
  | Tempo (tempo : Nat)
  | Volume (left right : Nat)
  | ExecuteMusic
  | DutyCyclePattern (a b c d : Nat)
  | SoundCall (addr : Nat)
  | Loop (count addr : Nat)
  | Return
  deriving DecidableEq, Repr

/-- `u16::from_le_bytes([lo, hi])`. -/
def le16 (lo hi : Nat) : Nat := lo + 256 * hi

/-- `u16::from_be_bytes([hi, lo])`. -/
def be16 (hi lo : Nat) : Nat := 256 * hi + lo

/-- High nibble of the first opcode byte mapped to a note name, as in the
first twelve arms of `Command::parse_music_pulse`. -/
def noteNameOf (hi : Nat) : NoteName :=
  match hi with
  | 0 => .CFlat | 1 => .CSharp | 2 => .DFlat | 3 => .DSharp
  | 4 => .EFlat | 5 => .FFlat | 6 => .FSharp | 7 => .GFlat
  | 8 => .GSharp | 9 => .AFlat | 10 => .ASharp | _ => .BFlat

/-- `Command::parse_music_pulse`.  `b1 b2 b3` are the (optional) bytes
after the opcode; a byte is only consumed when the opcode needs it, and a
missing needed byte or an unknown opcode yields `none` (the panic). -/
def parseMusicPulse (b0 : Nat) (b1 b2 b3 : Option Nat) : Option Command :=
  if b0 ≤ 0xbf then some (.Note (noteNameOf (b0 >>> 4)) (b0 % 16))
  else if b0 ≤ 0xcf then some (.Rest (b0 % 16))
  else if b0 ≤ 0xdf then
    match b1 with
    | some x => some (.NoteType (b0 % 16) (x % 16) (from_i4 x))
    | none => none
  else if b0 ≤ 0xe7 then some (.Octave (b0 % 16))
  else if b0 = 0xe8 then some .TogglePerfectPitch
  else if b0 = 0xea then
    match b1, b2 with
    | some x, some y => some (.Vibrato x (y >>> 4) (y % 16))
    | _, _ => none
  else if b0 = 0xeb then
    match b1, b2 with
    | some x, some y => some (.PitchSlide x (y >>> 4) (y % 16))
    | _, _ => none
  else if b0 = 0xec then
    match b1 with
    | some x => some (.DutyCycle x)
    | none => none
  else if b0 = 0xed then
    match b1, b2 with
    | some x, some y => some (.Tempo (be16 x y))
    | _, _ => none
  else if b0 = 0xf0 then
    match b1 with
    | some x => some (.Volume (x >>> 4) (x % 16))
    | none => none
  else if b0 = 0xf8 then some .ExecuteMusic
  else if b0 = 0xfc then
    match b1 with
    | some x => some (.DutyCyclePattern (x >>> 6) ((x >>> 4) % 4) ((x >>> 2) % 4) (x % 4))
    | none => none
  else if b0 = 0xfd then
    match b1, b2 with
    | some x, some y => some (.SoundCall (le16 x y))
    | _, _ => none
  else if b0 = 0xfe then
    match b1, b2, b3 with
    | some x, some y, some z => some (.Loop x (le16 y z))
    | _, _, _ => none
  else if b0 = 0xff then some .Return
  else none

/-- `Command::parse_music_wave` (music pulse minus `0xEC`, `0xF0`,
`0xFC`). -/
def parseMusicWave (b0 : Nat) (b1 b2 b3 : Option Nat) : Option Command :=
  if b0 ≤ 0xbf then some (.Note (noteNameOf (b0 >>> 4)) (b0 % 16))
  else if b0 ≤ 0xcf then some (.Rest (b0 % 16))
  else if b0 ≤ 0xdf then
    match b1 with
    | some x => some (.NoteType (b0 % 16) (x % 16) (from_i4 x))
    | none => none
  else if b0 ≤ 0xe7 then some (.Octave (b0 % 16))
  else if b0 = 0xe8 then some .TogglePerfectPitch
  else if b0 = 0xea then
    match b1, b2 with
    | some x, some y => some (.Vibrato x (y >>> 4) (y % 16))
    | _, _ => none
  else if b0 = 0xeb then
    match b1, b2 with
    | some x, some y => some (.PitchSlide x (y >>> 4) (y % 16))
    | _, _ => none
  else if b0 = 0xed then
    match b1, b2 with
    | some x, some y => some (.Tempo (be16 x y))
    | _, _ => none
  else if b0 = 0xf8 then some .ExecuteMusic
  else if b0 = 0xfd then
    match b1, b2 with
    | some x, some y => some (.SoundCall (le16 x y))
    | _, _ => none
  else if b0 = 0xfe then
    match b1, b2, b3 with
    | some x, some y, some z => some (.Loop x (le16 y z))
    | _, _, _ => none
  else if b0 = 0xff then some .Return
  else none

/-- `Command::parse_music_noise`. -/
def parseMusicNoise (b0 : Nat) (b1 b2 b3 : Option Nat) : Option Command :=
  if b0 < 0xb0 then none
  else if b0 ≤ 0xbf then
    match b1 with
    | some x => some (.DrumNote x (b0 >>> 4))
    | none => none
  else if b0 ≤ 0xcf then some (.Rest (b0 % 16))
  else if b0 ≤ 0xdf then some (.DrumSpeed (b0 % 16))
  else if b0 = 0xfd then
    match b1, b2 with
    | some x, some y => some (.SoundCall (le16 x y))
    | _, _ => none
  else if b0 = 0xfe then
    match b1, b2, b3 with
    | some x, some y, some z => some (.Loop x (le16 y z))
    | _, _, _ => none
  else if b0 = 0xff then some .Return
  else none

/-- `Command::parse_sfx_pulse`. -/
def parseSfxPulse (b0 : Nat) (b1 b2 b3 : Option Nat) : Option Command :=
  if b0 = 0x10 then
    match b1 with
    | some x => some (.PitchSweep (x >>> 4) (from_i4 x))
    | none => none
  else if 0x20 ≤ b0 ∧ b0 ≤ 0x2f then
    match b1, b2, b3 with
    | some x, some y, some z => some (.SquareNote (b0 % 16) (x >>> 4) (from_i4 x) (le16 y z))
    | _, _, _ => none
  else if b0 = 0xec then
    match b1 with
    | some x => some (.DutyCycle x)
    | none => none
  else if b0 = 0xf8 then some .ExecuteMusic
  else if b0 = 0xfc then
    match b1 with
    | some x => some (.DutyCyclePattern (x >>> 6) ((x >>> 4) % 4) ((x >>> 2) % 4) (x % 4))
    | none => none
  else if b0 = 0xfd then
    match b1, b2 with
    | some x, some y => some (.SoundCall (le16 x y))
    | _, _ => none
  else if b0 = 0xfe then
    match b1, b2, b3 with
    | some x, some y, some z => some (.Loop x (le16 y z))
    | _, _, _ => none
  else if b0 = 0xff then some .Return
  else none

/-- `Command::parse_sfx_wave` (only `0xF8` is known). -/
def parseSfxWave (b0 : Nat) : Option Command :=
  if b0 = 0xf8 then some .ExecuteMusic else none

/-- `Command::parse_sfx_noise`. -/
def parseSfxNoise (b0 : Nat) (b1 b2 b3 : Option Nat) : Option Command :=
  if 0x20 ≤ b0 ∧ b0 ≤ 0x2f then
    match b1, b2 with
    | some x, some y => some (.NoiseNote (b0 % 16) (x >>> 4) (from_i4 x) y)
    | _, _ => none
  else if b0 = 0xec then
    match b1 with
    | some x => some (.DutyCycle x)
    | none => none
  else if b0 = 0xfc then
    match b1 with
    | some x => some (.DutyCyclePattern (x >>> 6) ((x >>> 4) % 4) ((x >>> 2) % 4) (x % 4))
    | none => none
  else if b0 = 0xfd then
    match b1, b2 with
    | some x, some y => some (.SoundCall (le16 x y))
    | _, _ => none
  else if b0 = 0xfe then
    match b1, b2, b3 with
    | some x, some y, some z => some (.Loop x (le16 y z))
    | _, _, _ => none
  else if b0 = 0xff then some .Return
  else none

/-- `Command::parse`: flat ROM offset `bank * 0x4000 + (addr & 0x3fff)`,
then the per-kind decoder on the bytes from that offset. -/
def Command.parse (rom : List Nat) (bank addr : Nat) (channel : ChannelType) :
    Option Command :=
  let pos := bank * 0x4000 + addr % 0x4000
  match byteAt rom pos with
  | none => none
  | some b0 =>
    match channel with
    | .MusicPulse => parseMusicPulse b0 (byteAt rom (pos + 1)) (byteAt rom (pos + 2)) (byteAt rom (pos + 3))
    | .MusicWave => parseMusicWave b0 (byteAt rom (pos + 1)) (byteAt rom (pos + 2)) (byteAt rom (pos + 3))
    | .MusicNoise => parseMusicNoise b0 (byteAt rom (pos + 1)) (byteAt rom (pos + 2)) (byteAt rom (pos + 3))
    | .SfxPulse => parseSfxPulse b0 (byteAt rom (pos + 1)) (byteAt rom (pos + 2)) (byteAt rom (pos + 3))
    | .SfxWave => parseSfxWave b0
    | .SfxNoise => parseSfxNoise b0 (byteAt rom (pos + 1)) (byteAt rom (pos + 2)) (byteAt rom (pos + 3))

/-- `Command::len`: the byte length of each command. -/
def Command.len : Command → Nat
  | .PitchSweep .. => 2
  | .SquareNote .. => 4
  | .NoiseNote .. => 3
  | .Note .. => 1
  | .DrumNote .. => 2
  | .Rest _ => 1
  | .NoteType .. => 2
  | .DrumSpeed _ => 1
  | .Octave _ => 1
  | .TogglePerfectPitch => 1
  | .Vibrato .. => 3
  | .PitchSlide .. => 3
  | .DutyCycle _ => 2
  | .Tempo _ => 3
  | .Volume .. => 2
  | .ExecuteMusic => 1
  | .DutyCyclePattern .. => 2
  | .SoundCall _ => 3
  | .Loop .. => 4
  | .Return => 1

/-- The mutable state of `struct ChannelIterator` in `src/gen1/channel.rs`.
The immutable `rom` and `bank` fields are kept as function parameters
instead of state fields; everything else is a field.  `f64`
`period_count` is modelled over `ℚ`. -/
structure ChannelIterator where
  addr : Nat
  channel : ChannelType
  length : Nat
  pitch : Int
  pitch_sweep : Int
  pitch_sweep_delay : Nat
  pitch_sweep_period : Nat
  loop_counter : Nat
  note_delay : Nat
  note_delay_fraction : Nat
  duty : Nat
  volume : Nat
  volume_fade : Int
  volume_fade_delay : Nat
  freq : Nat
  noise_params : Nat
  noise_buffer : Nat
  period_count : ℚ
  is_done : Bool
  is_infinite : Option Bool
  deriving DecidableEq, Repr

/-- `ChannelIterator::new` (via `Channel::pcm`): the initial state for a
channel starting at `addr` with kind `channel`, caller pitch and length. -/
def ChannelIterator.new (addr : Nat) (channel : ChannelType) (pitch : Int)
    (length : Nat) : ChannelIterator where
  addr := addr
  channel := channel
  length := length
  pitch := pitch
  pitch_sweep := 0
  pitch_sweep_delay := 0
  pitch_sweep_period := 0
  loop_counter := 1
  note_delay := 0
  note_delay_fraction := 0
  duty := 0
  volume := 0
  volume_fade := 0
  volume_fade_delay := 0
  freq := 0
  noise_params := 0
  noise_buffer := 0x7fff
  period_count := 0
  is_done := false
  is_infinite := none

/-- `ChannelIterator::only_fadeout_left`. -/
def ChannelIterator.only_fadeout_left (s : ChannelIterator) : Bool :=
  s.is_done

/-- `ChannelIterator::reset_pitch`. -/
def ChannelIterator.reset_pitch (s : ChannelIterator) : ChannelIterator :=
  { s with pitch := 0 }

/-- `fn calc_duty(duty, period_count)`: `none` models the
`panic!("Invalid duty cycle")` arm. -/
def calc_duty (duty : Nat) (period_count : ℚ) : Option Bool :=
  match duty with
  | 0 => some (decide (0.5 ≤ period_count ∧ period_count < 0.625))
  | 1 => some (decide (0.5 ≤ period_count ∧ period_count < 0.75))
  | 2 => some (decide (0.5 ≤ period_count ∧ period_count < 0.875))
  | 3 => some (!decide (0.5 ≤ period_count ∧ period_count < 0.875))
  | _ => none

/-- `fn sample(bin, volume)`: `((2*bin) - 1) * ((volume * -1) / 16)`,
over `ℚ` instead of `f32` (the expression is exact in `f32` for the
values that occur: `bin ∈ {0,1}`, `volume ∈ 0..=15`). -/
def sample (bin volume : Int) : ℚ :=
  ((2 * bin - 1 : Int) : ℚ) * (((volume : ℚ) * -1) / 16)

/-- Reinterpretation `(pitch as u8) as usize` of the signed pitch byte:
the two's-complement byte value, i.e. `pitch mod 256`. -/
def pitch_u8 (pitch : Int) : Nat := (pitch % 256).toNat

/-- One `period_count` update of the pulse loop:
`period_count += 1.0 / period; if period_count >= 1.0 { period_count -= 1.0 }`. -/
def pulse_tick (period : Nat) (pc : ℚ) : ℚ :=
  let pc' := pc + 1 / (period : ℚ)
  if 1 ≤ pc' then pc' - 1 else pc'

/-- The samples emitted by the `SfxPulse` per-sample loop of
`ChannelIterator::next` (`duty`, `volume` and `period` are constant
across the frame; the phase advances by `pulse_tick`).  The duty lookup
is `calc_duty(duty & 0b11, period_count)`; `getD false` is the value it
always takes on the `some` branch (the `none` branch is the panic,
unreachable because of the mask — see the claim about `InvalidDuty`). -/
def pulseSamples (duty volume period : Nat) (pc : ℚ) : Nat → List ℚ
  | 0 => []
  | n + 1 =>
    sample (if (calc_duty (duty % 4) pc).getD false then 1 else 0) (volume : Int) ::
      pulseSamples duty volume period (pulse_tick period pc) n

/-- The `period_count` value left behind by `n` iterations of the
`SfxPulse` per-sample loop. -/
def pulse_pc_after (period : Nat) (pc : ℚ) : Nat → ℚ
  | 0 => pc
  | n + 1 => pulse_pc_after period (pulse_tick period pc) n

/-- `u8::rotate_left(2)`. -/
def rotl2 (d : Nat) : Nat := ((d <<< 2) % 256) ||| (d >>> 6)

/-- `shift` of the noise parameters: `params >> 4`, folded by `& 0xd`
when it exceeds `0xd`. -/
def noiseShift (params : Nat) : Nat :=
  let shift := params >>> 4
  if shift > 0xd then shift &&& 0xd else shift

/-- `divider = params & 0x7`. -/
def noiseDivider (params : Nat) : Nat := params &&& 0x7

/-- `width = (params & 0x8) == 0x8`. -/
def noiseWidth (params : Nat) : Bool := params &&& 0x8 = 0x8

/-- The LFSR advance-interval of the noise loop:
`(2.0 * (if divider == 0 { 0.5 } else { divider }) * (1 << (shift + 1)) as f64) as usize`.
The `f64` product is integer-exact for all parameter values (its factors
are small), so the embedding computes it over `ℚ` and truncates. -/
def noiseStepSize (params : Nat) : Nat :=
  (⌊2 * (if noiseDivider params = 0 then (0.5 : ℚ) else (noiseDivider params : ℚ)) *
    ((1 <<< (noiseShift params + 1) : Nat) : ℚ)⌋).toNat

/-- One LFSR advance: `bit1 = (buffer >> 1) & 1;
buffer = (buffer >> 1) | ((bit0 ^ bit1) << 14)`, and with `width` also
`buffer = (buffer >> 1) | ((bit0 ^ bit1) << 6)`. -/
def noiseAdvance (width : Bool) (buffer : Nat) : Nat :=
  let bit0 := buffer % 2
  let bit1 := (buffer >>> 1) % 2
  let b := (buffer >>> 1) ||| ((bit0 ^^^ bit1) <<< 14)
  if width then (b >>> 1) ||| ((bit0 ^^^ bit1) <<< 6) else b

/-- The noise buffer update guarded by the advance condition of the
source loop: the LFSR advances exactly when `index % step == 0`, where
`index` is the 0-based position within the frame being generated. -/
def noiseStepBuf (step : Nat) (width : Bool) (index buffer : Nat) : Nat :=
  if index % step = 0 then noiseAdvance width buffer else buffer

/-- The samples emitted by the `SfxNoise` per-sample loop of
`ChannelIterator::next`: each sample is `sample(1 ^ (buffer & 1), volume)`
from the buffer before the (possible) advance at that index. -/
def noiseSamples (volume step : Nat) (width : Bool) (buffer index : Nat) :
    Nat → List ℚ
  | 0 => []
  | n + 1 =>
    sample ((1 ^^^ buffer % 2 : Nat) : Int) (volume : Int) ::
      noiseSamples volume step width (noiseStepBuf step width index buffer) (index + 1) n

/-- The noise buffer left behind by `n` iterations of the `SfxNoise`
per-sample loop. -/
def noiseBufferAfter (step : Nat) (width : Bool) (buffer index : Nat) : Nat → Nat
  | 0 => buffer
  | n + 1 => noiseBufferAfter step width (noiseStepBuf step width index buffer) (index + 1) n

/-- The frame-generation block of `ChannelIterator::next` (without the
per-frame post-ticks): the 17,556 samples and the state left by the loop.
`none` models the `todo!("Channel ...")` panic of the unimplemented
kinds. -/
def frameOutput (s : ChannelIterator) : Option (List ℚ × ChannelIterator) :=
  match s.channel with
  | .SfxPulse =>
    -- `SOURCE_SAMPLE_RATE * (2048 - ((freq + (pitch as u8)) & 0x7ff)) / 131072`
    let period := SOURCE_SAMPLE_RATE * (2048 - (s.freq + pitch_u8 s.pitch) % 2048) / 131072
    some (pulseSamples s.duty s.volume period s.period_count SAMPLES_PER_FRAME,
      { s with
        period_count := pulse_pc_after period s.period_count SAMPLES_PER_FRAME
        duty := rotl2 s.duty })
  | .SfxNoise =>
    let step := noiseStepSize s.noise_params
    let width := noiseWidth s.noise_params
    some (noiseSamples s.volume step width s.noise_buffer 0 SAMPLES_PER_FRAME,
      { s with
        noise_buffer := noiseBufferAfter step width s.noise_buffer 0 SAMPLES_PER_FRAME })
  | _ => none

/-- Post-frame tick 1: `if note_delay > 0 { note_delay -= 1 }`. -/
def noteDelayTick (s : ChannelIterator) : ChannelIterator :=
  if s.note_delay > 0 then { s with note_delay := s.note_delay - 1 } else s

/-- Post-frame tick 2, the volume-fade envelope (`match volume_fade_delay`):
delay 0 does nothing; delay 1 resets the delay to `(volume_fade & 0b111) as u8`
(the low three bits of the two's-complement fade byte, `volume_fade mod 8`)
and steps `volume` toward the fade direction; any larger delay decrements. -/
def volumeFadeTick (s : ChannelIterator) : ChannelIterator :=
  match s.volume_fade_delay with
  | 0 => s
  | 1 =>
    let s := { s with volume_fade_delay := (s.volume_fade % 8).toNat }
    if s.volume_fade < 0 ∧ s.volume < 15 then { s with volume := s.volume + 1 }
    else if s.volume_fade > 0 ∧ s.volume > 0 then { s with volume := s.volume - 1 }
    else s
  | _ => { s with volume_fade_delay := s.volume_fade_delay - 1 }

/-- Post-frame tick 3, the pitch-sweep envelope.  `offset ≤ freq`, so the
`u16` `wrapping_sub` never actually wraps; the `% 65536` keeps the `u16`
wrap of `wrapping_add`. -/
def pitchSweepTick (s : ChannelIterator) : ChannelIterator :=
  match s.pitch_sweep_delay with
  | 0 => s
  | 1 =>
    let offset := s.freq >>> s.pitch_sweep.natAbs
    { s with
      pitch_sweep_delay := s.pitch_sweep_period
      freq := if s.pitch_sweep < 0 then s.freq - offset else (s.freq + offset) % 65536 }
  | _ => { s with pitch_sweep_delay := s.pitch_sweep_delay - 1 }

/-- The three per-frame post-ticks of `ChannelIterator::next`, in source
order. -/
def frameTick (s : ChannelIterator) : ChannelIterator :=
  pitchSweepTick (volumeFadeTick (noteDelayTick s))

/-- One frame of `ChannelIterator::next`: the generation block followed
by the post-ticks. -/
def ChannelIterator.nextFrame (s : ChannelIterator) :
    Option (List ℚ × ChannelIterator) :=
  (frameOutput s).map (fun fs => (fs.1, frameTick fs.2))

/-- The one-command step of the command-processing part of
`ChannelIterator::next`: parse at `addr`, apply the command's effect, and
advance `addr` by the command length unless the command rewrote it
(`Return`, taken `Loop`).  `none` models the `todo!` panics (unknown
opcode or unimplemented command). -/
def commandStep (rom : List Nat) (bank : Nat) (s : ChannelIterator) :
    Option ChannelIterator :=
  match Command.parse rom bank s.addr s.channel with
  | none => none
  | some cmd =>
    match cmd with
    | .Return => some { s with is_done := true, is_infinite := some false }
    | .ExecuteMusic =>
      some { s with
        channel := s.channel.to_muisc
        addr := (s.addr + Command.len cmd) % 65536 }
    | .DutyCycle a =>
      some { s with
        duty := ((a <<< 6) ||| (a <<< 4) ||| (a <<< 2) ||| a) % 256
        addr := (s.addr + Command.len cmd) % 65536 }
    | .DutyCyclePattern a b c d =>
      some { s with
        duty := ((a <<< 6) ||| (b <<< 4) ||| (c <<< 2) ||| d) % 256
        addr := (s.addr + Command.len cmd) % 65536 }
    | .PitchSweep length change =>
      some { s with
        pitch_sweep := change
        pitch_sweep_delay := length
        pitch_sweep_period := length
        addr := (s.addr + Command.len cmd) % 65536 }
    | .Loop count target =>
      if count = 0 then some { s with addr := target, is_infinite := some true }
      else if s.loop_counter < count then
        some { s with loop_counter := s.loop_counter + 1, addr := target }
      else some { s with addr := (s.addr + Command.len cmd) % 65536 }
    | .SquareNote length volume fade freq =>
      let subframes := s.length * (length + 1) + s.note_delay_fraction
      some { s with
        note_delay := (subframes >>> 8) % 256
        note_delay_fraction := subframes % 256
        volume := volume
        volume_fade := fade
        volume_fade_delay := (fade % 8).toNat
        freq := freq
        addr := (s.addr + Command.len cmd) % 65536 }
    | .NoiseNote length volume fade value =>
      let subframes := s.length * (length + 1) + s.note_delay_fraction
      some { s with
        note_delay := (subframes >>> 8) % 256
        note_delay_fraction := subframes % 256
        volume := volume
        volume_fade := fade
        volume_fade_delay := (fade % 8).toNat
        noise_params := (value + pitch_u8 s.pitch) % 256
        noise_buffer := 0x7fff
        addr := (s.addr + Command.len cmd) % 65536 }
    | _ => none

/-- Result of one `ChannelIterator::next` call: a frame with the updated
state, the iterator's `None` (with the state the call leaves behind), or
a stuck outcome (`todo!`/`panic!`, or fuel exhaustion standing for a
non-terminating command loop). -/
inductive ChanNextRes where
  | frame (data : List ℚ) (s : ChannelIterator)
  | done (s : ChannelIterator)
  | stuck
  deriving DecidableEq, Repr

/-- `ChannelIterator::next`, with fuel bounding the number of commands
processed before a frame is produced. -/
def channelNext (rom : List Nat) (bank : Nat) : Nat → ChannelIterator → ChanNextRes
  | 0, _ => .stuck
  | fuel + 1, s =>
    if s.note_delay > 0 ∨ s.is_done then
      if s.is_done ∧ s.volume = 0 then .done s
      else
        match s.nextFrame with
        | some (f, s') => .frame f s'
        | none => .stuck
    else
      match commandStep rom bank s with
      | some s' => channelNext rom bank fuel s'
      | none => .stuck

/-- The states a channel iterator can reach from a starting state: the
start itself, plus closure under one command effect (taken when the
command loop is still running) and one produced frame (taken when a frame
is generated and returned). -/
inductive Reach (rom : List Nat) (bank : Nat) (s0 : ChannelIterator) :
    ChannelIterator → Prop where
  | init : Reach rom bank s0 s0
  | cmd {s s' : ChannelIterator} : Reach rom bank s0 s → s.note_delay = 0 →
      s.is_done = false → commandStep rom bank s = some s' → Reach rom bank s0 s'
  | frame {s s' : ChannelIterator} {f : List ℚ} : Reach rom bank s0 s →
      (s.note_delay > 0 ∨ s.is_done) → ¬(s.is_done ∧ s.volume = 0) →
      s.nextFrame = some (f, s') → Reach rom bank s0 s'

/-- `struct Channel` (`src/gen1/channel.rs`): a parsed channel-table
entry.  The shared `rom` and `bank` are function parameters in this
embedding, so only the stream address and kind remain. -/
structure Channel where
  addr : Nat
  channel : ChannelType
  deriving DecidableEq, Repr

/-- `Channel::pcm`: construct the channel's iterator. -/
def Channel.pcm (c : Channel) (pitch : Int) (length : Nat) : ChannelIterator :=
  ChannelIterator.new c.addr c.channel pitch length

/-- `struct Sound` (`src/gen2/sound.rs`): up to four channels. -/
structure Sound where
  pulse1 : Option Channel
  pulse2 : Option Channel
  wave : Option Channel
  noise : Option Channel
  deriving DecidableEq, Repr

/-- The mixer state, `struct SoundIterator` in `src/gen2/sound.rs`. -/
structure SoundIterator where
  pulse1 : Option ChannelIterator
  pulse2 : Option ChannelIterator
  wave : Option ChannelIterator
  noise : Option ChannelIterator
  index : Nat
  buffer : List ℚ
  deriving DecidableEq, Repr

/-- `SoundIterator::new`: every channel gets the caller's pitch and
length — except the noise channel, whose length parameter is `0x100`. -/
def SoundIterator.new (sound : Sound) (pitch : Int) (length : Nat) : SoundIterator where
  pulse1 := sound.pulse1.map (fun c => c.pcm pitch length)
  pulse2 := sound.pulse2.map (fun c => c.pcm pitch length)
  wave := sound.wave.map (fun c => c.pcm pitch length)
  noise := sound.noise.map (fun c => c.pcm pitch 0x100)
  index := 0
  buffer := List.replicate SAMPLES_PER_FRAME 0

/-- Outcome of the `if let Some(ch) = &mut self.x { ch.next() }` pattern
that both `SoundIterator::next` and `SoundIterator::count` apply to each
channel slot: either the slot is absent or the channel returned `None`
(`quiet`, with the channel state the call leaves behind), or a frame was
produced, or the pull aborted. -/
inductive PullRes where
  | stuck
  | quiet (c : Option ChannelIterator)
  | frame (data : List ℚ) (c : ChannelIterator)
  deriving DecidableEq, Repr

/-- Pull one frame from an optional channel slot. -/
def pullFrame (rom : List Nat) (bank fuel : Nat) :
    Option ChannelIterator → PullRes
  | none => .quiet none
  | some c =>
    match channelNext rom bank fuel c with
    | .stuck => .stuck
    | .done c' => .quiet (some c')
    | .frame f c' => .frame f c'

/-- The channel slot left behind by a pull. -/
def PullRes.out : PullRes → Option ChannelIterator
  | .stuck => none
  | .quiet c => c
  | .frame _ c => some c

/-- Did the pull produce a frame (`ch.next().is_some()`)? -/
def PullRes.isFrame : PullRes → Bool
  | .frame _ _ => true
  | _ => false

/-- `self.buffer[i] += data[i] / 3.0` over a whole frame: mix a pulled
frame (if any) into the buffer with weight 1/3. -/
def mixInto (buffer : List ℚ) : PullRes → List ℚ
  | .frame data _ => List.zipWith (fun b d => b + d / 3) buffer data
  | _ => buffer

/-- The frame-boundary block of `SoundIterator::next`: clear the buffer,
pull one frame from each slot in order, mix each with weight 1/3, and
report whether every slot was quiet.  `none` models a panic inside a
channel pull. -/
def soundRefill (rom : List Nat) (bank fuel : Nat) (s : SoundIterator) :
    Option (SoundIterator × Bool) :=
  match pullFrame rom bank fuel s.pulse1 with
  | .stuck => none
  | r1 =>
    match pullFrame rom bank fuel s.pulse2 with
    | .stuck => none
    | r2 =>
      match pullFrame rom bank fuel s.wave with
      | .stuck => none
      | r3 =>
        match pullFrame rom bank fuel s.noise with
        | .stuck => none
        | r4 =>
          let buffer0 := List.replicate SAMPLES_PER_FRAME (0 : ℚ)
          some ({ pulse1 := r1.out, pulse2 := r2.out, wave := r3.out, noise := r4.out,
                  index := s.index,
                  buffer := mixInto (mixInto (mixInto (mixInto buffer0 r1) r2) r3) r4 },
                !(r1.isFrame || r2.isFrame || r3.isFrame || r4.isFrame))

/-- Result of one `SoundIterator::next` call. -/
inductive MixNextRes where
  | sample (q : ℚ) (s : SoundIterator)
  | done
  | stuck
  deriving DecidableEq, Repr

/-- `SoundIterator::next` (`src/gen2/sound.rs`): refill the frame buffer
when `index % SAMPLES_PER_FRAME == 0` (returning `None` if every channel
was quiet), then serve `buffer[index % SAMPLES_PER_FRAME]` and advance
`index`. -/
def soundNext (rom : List Nat) (bank fuel : Nat) (s : SoundIterator) : MixNextRes :=
  if s.index % SAMPLES_PER_FRAME = 0 then
    match soundRefill rom bank fuel s with
    | none => .stuck
    | some (s', done) =>
      if done then .done
      else .sample (s'.buffer.getD (s'.index % SAMPLES_PER_FRAME) 0)
        { s' with index := s'.index + 1 }
  else .sample (s.buffer.getD (s.index % SAMPLES_PER_FRAME) 0)
    { s with index := s.index + 1 }

/-- The mixer, driven from state `s`, emits exactly `n` further samples
and then reports the end of the stream. -/
inductive SoundRuns (rom : List Nat) (bank fuel : Nat) : SoundIterator → Nat → Prop where
  | done {s : SoundIterator} : soundNext rom bank fuel s = .done → SoundRuns rom bank fuel s 0
  | step {s s' : SoundIterator} {q : ℚ} {n : Nat} :
      soundNext rom bank fuel s = .sample q s' → SoundRuns rom bank fuel s' n →
      SoundRuns rom bank fuel s (n + 1)

/-- Result of `SoundIterator::count`: a bounded sample count, the
`usize::MAX` sentinel for an unbounded sound, or an abort (a panic, or
probe fuel exhaustion). -/
inductive CountRes where
  | bounded (n : Nat)
  | unbounded
  | stuck
  deriving DecidableEq, Repr

/-- Did this pull leave a channel whose `is_infinite()` is `Some(true)`
(checked on the state the pull leaves behind, for present slots only)? -/
def PullRes.infinite : PullRes → Bool
  | .quiet (some c) => c.is_infinite = some true
  | .frame _ c => c.is_infinite = some true
  | _ => false

/-- `SoundIterator::count` (`src/gen2/sound.rs`): per iteration, pull one
frame from each slot; after each pull, return the unbounded sentinel if
that channel reports `is_infinite() == Some(true)`; if no slot produced a
frame stop, else add `SAMPLES_PER_FRAME` and continue.  The outer fuel
bounds the number of frame iterations. -/
def soundCount (rom : List Nat) (bank chanFuel : Nat) :
    Nat → SoundIterator → CountRes
  | 0, _ => .stuck
  | fuel + 1, s =>
    match pullFrame rom bank chanFuel s.pulse1 with
    | .stuck => .stuck
    | r1 =>
      if r1.infinite then .unbounded
      else
        match pullFrame rom bank chanFuel s.pulse2 with
        | .stuck => .stuck
        | r2 =>
          if r2.infinite then .unbounded
          else
            match pullFrame rom bank chanFuel s.wave with
            | .stuck => .stuck
            | r3 =>
              if r3.infinite then .unbounded
              else
                match pullFrame rom bank chanFuel s.noise with
                | .stuck => .stuck
                | r4 =>
                  if r4.infinite then .unbounded
                  else if !(r1.isFrame || r2.isFrame || r3.isFrame || r4.isFrame) then
                    .bounded 0
                  else
                    match soundCount rom bank chanFuel fuel
                      { s with pulse1 := r1.out, pulse2 := r2.out,
                               wave := r3.out, noise := r4.out } with
                    | .bounded n => .bounded (n + SAMPLES_PER_FRAME)
                    | other => other

/-- `struct Pcm` of `src/gen1/mod.rs`: the parsed sound bundled with the
caller's pitch and (biased) length. -/
structure Pcm where
  pitch : Int
  length : Nat
  sound : Sound
  deriving DecidableEq, Repr

/-- `Pcm::total_duration` (`src/gen1/mod.rs`): run the counting probe
over a fresh iterator; the `usize::MAX` sentinel becomes `None`, any
other count becomes `Some(count / SOURCE_SAMPLE_RATE)` seconds.  The
outer `none` models an aborted (panicking or non-terminating) probe. -/
def Pcm.total_duration (rom : List Nat) (bank chanFuel probeFuel : Nat)
    (p : Pcm) : Option (Option ℚ) :=
  match soundCount rom bank chanFuel probeFuel
      (SoundIterator.new p.sound p.pitch p.length) with
  | .stuck => none
  | .unbounded => some none
  | .bounded n => some (some ((n : ℚ) / (SOURCE_SAMPLE_RATE : ℚ)))

/-- Modelled from the spec: the Gen 1 mixer `SoundIterator` of
`gen1/sound.rs` is declared (`mod sound` in `src/gen1/mod.rs`, whose
`Pcm` uses `sound::Sound` and `sound::SoundIterator`) but the file
itself is not under `src/`; its state is modelled from spec §4.4 with
the same shape as the `src/gen2/sound.rs` iterator that is in `src/`. -/
structure SoundIteratorG1 where
  pulse1 : Option ChannelIterator
  pulse2 : Option ChannelIterator
  wave : Option ChannelIterator
  noise : Option ChannelIterator
  index : Nat
  buffer : List ℚ
  deriving DecidableEq, Repr

/-- Modelled from the spec (§4.4, missing `gen1/sound.rs` constructor):
each channel iterator gets the caller's pitch and length, except the
noise channel, which is constructed with a length parameter of `0x100`
(neutral) instead of the caller's length. -/
def SoundIteratorG1.new (sound : Sound) (pitch : Int) (length : Nat) :
    SoundIteratorG1 where
  pulse1 := sound.pulse1.map (fun c => c.pcm pitch length)
  pulse2 := sound.pulse2.map (fun c => c.pcm pitch length)
  wave := sound.wave.map (fun c => c.pcm pitch length)
  noise := sound.noise.map (fun c => c.pcm pitch 0x100)
  index := 0
  buffer := List.replicate SAMPLES_PER_FRAME 0

/-- Modelled from the spec: a pulled pulse channel keeps the fade-out
flag set unless it produced a frame while reporting
`only_fadeout_left() == false`. -/
def PullRes.fadeout : PullRes → Bool
  | .frame _ c => c.only_fadeout_left
  | _ => true

/-- Modelled from the spec (§4.4, missing `gen1/sound.rs`): the channel
state the noise slot is pulled from — when both pulse channels report
`only_fadeout_left()`, the noise channel's pitch is cleared via
`reset_pitch()` before its next frame pull. -/
def g1NoiseInput (noise : Option ChannelIterator) (fadeout : Bool) :
    Option ChannelIterator :=
  if fadeout then noise.map ChannelIterator.reset_pitch else noise

/-- Modelled from the spec (§4.4, missing `gen1/sound.rs`): the
frame-boundary block of the Gen 1 mixer — like the `src/gen2/sound.rs`
refill, but the noise channel is pulled through `g1NoiseInput` with the
fade-out flag computed from the two pulse pulls. -/
def g1Refill (rom : List Nat) (bank fuel : Nat) (s : SoundIteratorG1) :
    Option (SoundIteratorG1 × Bool) :=
  match pullFrame rom bank fuel s.pulse1 with
  | .stuck => none
  | r1 =>
    match pullFrame rom bank fuel s.pulse2 with
    | .stuck => none
    | r2 =>
      match pullFrame rom bank fuel s.wave with
      | .stuck => none
      | r3 =>
        let fadeout := r1.fadeout && r2.fadeout
        match pullFrame rom bank fuel (g1NoiseInput s.noise fadeout) with
        | .stuck => none
        | r4 =>
          let buffer0 := List.replicate SAMPLES_PER_FRAME (0 : ℚ)
          some ({ pulse1 := r1.out, pulse2 := r2.out, wave := r3.out, noise := r4.out,
                  index := s.index,
                  buffer := mixInto (mixInto (mixInto (mixInto buffer0 r1) r2) r3) r4 },
                !(r1.isFrame || r2.isFrame || r3.isFrame || r4.isFrame))

/-- Claim C9: the signed-magnitude nibble decoder satisfies
`from_i4 0x8 = 0`, `from_i4 0x0 = 0`, and `from_i4 n = -from_i4 (n | 8)`
for every `n` in `0..=7`. -/
theorem c9_from_i4_signed_magnitude :
    from_i4 0x8 = 0 ∧ from_i4 0x0 = 0 ∧
      ∀ n : Fin 8, from_i4 n = -from_i4 (n.val ||| 8) := by
  decide

/-- Claim C8: the duty index passed to `calc_duty` is always masked with
`& 0b11`, so it lies in `0..=3` and the lookup never reaches the
`InvalidDuty` panic arm (`isSome` holds for every phase and every raw
duty byte). -/
theorem c8_invalid_duty_unreachable :
    ∀ (duty : Nat) (period_count : ℚ),
      (calc_duty (duty % 4) period_count).isSome = true := by
  intro duty pc
  have h : duty % 4 = 0 ∨ duty % 4 = 1 ∨ duty % 4 = 2 ∨ duty % 4 = 3 := by omega
  rcases h with h | h | h | h <;> rw [h] <;> rfl

/-- Period formula as claim C1 states it, modelled from the claim's
words for comparison with the source: the signed pitch added as a signed
integer to the frequency, the sum masked to 11 bits. -/
def periodSpecC1 (freq : Nat) (pitch : Int) : Nat :=
  SOURCE_SAMPLE_RATE * (2048 - (((freq : Int) + pitch) % 2048).toNat) / 131072

/-- A tiny SFX-pulse command stream: `SquareNote` (length nibble 0,
volume 15, fade 0, frequency 0) followed by `Return`. -/
def rom_c1 : List Nat := [0x20, 0xF0, 0x00, 0x00, 0xFF]

/-- The channel state reached from
`ChannelIterator.new 0 .SfxPulse (-1) 0x100` after processing the
`SquareNote` of `rom_c1`. -/
def state_c1 : ChannelIterator :=
  { ChannelIterator.new 0 .SfxPulse (-1) 0x100 with
    addr := 4, note_delay := 1, volume := 15 }

/-- Claim C1 (counterexample): at the reachable SFX-pulse state
`state_c1` (frequency 0, caller pitch −1), the claim's signed-addition
formula gives period 8, but the synthesized frame is the one generated
with period 14344 = `1048576 * (2048 - ((0 + 255) & 0x7FF)) / 131072`
(the code zero-extends `pitch as u8`); the two frames already differ at
sample index 4. -/
theorem c1_counterexample :
    Reach rom_c1 0 (ChannelIterator.new 0 .SfxPulse (-1) 0x100) state_c1 ∧
    state_c1.channel = .SfxPulse ∧
    periodSpecC1 state_c1.freq state_c1.pitch = 8 ∧
    (frameOutput state_c1).map (fun fs => fs.1.get? 4) = some (some (sample 0 15)) ∧
    (pulseSamples state_c1.duty state_c1.volume
        (periodSpecC1 state_c1.freq state_c1.pitch)
        state_c1.period_count SAMPLES_PER_FRAME).get? 4 = some (sample 1 15) ∧
    sample 0 15 ≠ sample 1 15 := by
  refine ⟨Reach.cmd Reach.init rfl rfl (by with_unfolding_all rfl), rfl,
    by with_unfolding_all rfl, by with_unfolding_all rfl, by with_unfolding_all rfl, ?_⟩
  norm_num [sample]

/-- Claim C1 (amended): for every reachable SFX-pulse state, the frame is
synthesized with
`period = 1048576 * (2048 - ((freq + (pitch mod 256)) & 0x7FF)) / 131072`,
where the signed pitch byte is reinterpreted as an unsigned byte
(`pitch as u8`, i.e. `pitch mod 256`) before the addition — not added as
a signed integer. -/
theorem c1_pulse_period_unsigned_pitch_byte :
    ∀ (rom : List Nat) (bank : Nat) (s0 s : ChannelIterator)
      (f : List ℚ) (s' : ChannelIterator),
      Reach rom bank s0 s → s.channel = .SfxPulse →
      frameOutput s = some (f, s') →
      f = pulseSamples s.duty s.volume
        (SOURCE_SAMPLE_RATE * (2048 - (s.freq + ((s.pitch % 256).toNat)) % 2048) / 131072)
        s.period_count SAMPLES_PER_FRAME := by
  intro rom bank s0 s f s' _ hch hf
  unfold frameOutput at hf
  rw [hch] at hf
  simp only [Option.some.injEq, Prod.mk.injEq] at hf
  exact hf.1.symm

/-- Witness for the amended C1 theorem at the concrete reachable state
`state_c1`. -/
theorem c1_pulse_period_unsigned_pitch_byte_witness :
    (frameOutput state_c1).map Prod.fst =
      some (pulseSamples state_c1.duty state_c1.volume
        (SOURCE_SAMPLE_RATE * (2048 - (state_c1.freq + ((state_c1.pitch % 256).toNat)) % 2048) / 131072)
        state_c1.period_count SAMPLES_PER_FRAME) := by
  obtain ⟨f, s', hf⟩ : ∃ f s', frameOutput state_c1 = some (f, s') := ⟨_, _, rfl⟩
  have hr : Reach rom_c1 0 (ChannelIterator.new 0 .SfxPulse (-1) 0x100) state_c1 :=
    Reach.cmd Reach.init rfl rfl (by with_unfolding_all rfl)
  rw [hf]
  exact congrArg some (c1_pulse_period_unsigned_pitch_byte rom_c1 0
    (ChannelIterator.new 0 .SfxPulse (-1) 0x100) state_c1 f s' hr rfl hf)

/-- Frame generation never touches the volume-envelope fields. -/
lemma frameOutput_volume_fields {s s1 : ChannelIterator} {f : List ℚ}
    (h : frameOutput s = some (f, s1)) :
    s1.volume = s.volume ∧ s1.volume_fade = s.volume_fade ∧
      s1.volume_fade_delay = s.volume_fade_delay ∧ s1.note_delay = s.note_delay := by
  unfold frameOutput at h
  split at h
  any_goals exact Option.noConfusion h
  all_goals
    simp only [Option.some.injEq, Prod.mk.injEq] at h
    obtain ⟨-, hs⟩ := h
    subst hs
    exact ⟨rfl, rfl, rfl, rfl⟩

/-- The note-delay tick never touches the volume-envelope fields. -/
lemma noteDelayTick_volume_fields (s : ChannelIterator) :
    (noteDelayTick s).volume = s.volume ∧ (noteDelayTick s).volume_fade = s.volume_fade ∧
      (noteDelayTick s).volume_fade_delay = s.volume_fade_delay := by
  unfold noteDelayTick
  split <;> exact ⟨rfl, rfl, rfl⟩

/-- The pitch-sweep tick never touches the volume-envelope fields. -/
lemma pitchSweepTick_volume_fields (s : ChannelIterator) :
    (pitchSweepTick s).volume = s.volume ∧ (pitchSweepTick s).volume_fade = s.volume_fade ∧
      (pitchSweepTick s).volume_fade_delay = s.volume_fade_delay := by
  unfold pitchSweepTick
  split <;> exact ⟨rfl, rfl, rfl⟩

/-- The volume-fade envelope when the delay has reached 1. -/
lemma volumeFadeTick_one {x : ChannelIterator} (h : x.volume_fade_delay = 1) :
    (volumeFadeTick x).volume_fade_delay = (x.volume_fade % 8).toNat ∧
    (volumeFadeTick x).volume =
      (if x.volume_fade < 0 ∧ x.volume < 15 then x.volume + 1
       else if 0 < x.volume_fade ∧ 0 < x.volume then x.volume - 1 else x.volume) := by
  unfold volumeFadeTick
  rw [h]
  dsimp only
  split_ifs <;> simp_all

/-- The volume-fade envelope when the delay is above 1. -/
lemma volumeFadeTick_ge2 {x : ChannelIterator} (h : 1 < x.volume_fade_delay) :
    (volumeFadeTick x).volume_fade_delay = x.volume_fade_delay - 1 ∧
    (volumeFadeTick x).volume = x.volume := by
  obtain ⟨k, hk⟩ : ∃ k, x.volume_fade_delay = k + 2 := ⟨x.volume_fade_delay - 2, by omega⟩
  unfold volumeFadeTick
  rw [hk]
  exact ⟨rfl, rfl⟩

/-- The volume-fade envelope when the delay is 0. -/
lemma volumeFadeTick_zero {x : ChannelIterator} (h : x.volume_fade_delay = 0) :
    volumeFadeTick x = x := by
  unfold volumeFadeTick
  rw [h]

/-- Behaviour of the whole per-frame tick on the volume envelope, split
by the three delay cases of the source `match`. -/
lemma frameTick_fade_cases (x : ChannelIterator) :
    (x.volume_fade_delay = 1 →
      (frameTick x).volume_fade_delay = (x.volume_fade % 8).toNat ∧
      (frameTick x).volume =
        (if x.volume_fade < 0 ∧ x.volume < 15 then x.volume + 1
         else if 0 < x.volume_fade ∧ 0 < x.volume then x.volume - 1 else x.volume)) ∧
    (1 < x.volume_fade_delay →
      (frameTick x).volume_fade_delay = x.volume_fade_delay - 1 ∧
      (frameTick x).volume = x.volume) ∧
    (x.volume_fade_delay = 0 →
      (frameTick x).volume_fade_delay = 0 ∧ (frameTick x).volume = x.volume) := by
  obtain ⟨hv, hf, hd⟩ := noteDelayTick_volume_fields x
  obtain ⟨pv, pf, pd⟩ := pitchSweepTick_volume_fields (volumeFadeTick (noteDelayTick x))
  unfold frameTick
  refine ⟨fun h1 => ?_, fun h2 => ?_, fun h0 => ?_⟩
  · obtain ⟨d1, d2⟩ := @volumeFadeTick_one (noteDelayTick x) (by rw [hd, h1])
    rw [hf] at d1
    rw [hf, hv] at d2
    exact ⟨by rw [pd, d1], by rw [pv, d2]⟩
  · obtain ⟨d1, d2⟩ := @volumeFadeTick_ge2 (noteDelayTick x) (by rw [hd]; exact h2)
    exact ⟨by rw [pd, d1, hd], by rw [pv, d2, hv]⟩
  · have d := @volumeFadeTick_zero (noteDelayTick x) (by rw [hd, h0])
    exact ⟨by rw [pd, d, hd, h0], by rw [pv, d, hv]⟩

/-- Claim C2 (amended): in the per-frame volume-fade envelope, a delay of
1 at the end of a frame is reset to `(volume_fade & 0b111) as u8` — the
low three bits of the fade byte's two's-complement representation,
`volume_fade mod 8` (not the absolute value of the fade masked to three
bits) — and volume then steps by 1 toward the fade direction under the
stated guards; a delay above 1 merely decrements, and a delay of 0
leaves the volume untouched. -/
theorem c2_volume_fade_envelope :
    ∀ (rom : List Nat) (bank : Nat) (s0 s : ChannelIterator)
      (f : List ℚ) (s' : ChannelIterator),
      Reach rom bank s0 s → ChannelIterator.nextFrame s = some (f, s') →
      ((s.volume_fade_delay = 1 →
          s'.volume_fade_delay = (s.volume_fade % 8).toNat ∧
          s'.volume =
            (if s.volume_fade < 0 ∧ s.volume < 15 then s.volume + 1
             else if 0 < s.volume_fade ∧ 0 < s.volume then s.volume - 1
             else s.volume)) ∧
       (1 < s.volume_fade_delay →
          s'.volume_fade_delay = s.volume_fade_delay - 1 ∧ s'.volume = s.volume) ∧
       (s.volume_fade_delay = 0 →
          s'.volume_fade_delay = 0 ∧ s'.volume = s.volume)) := by
  intro rom bank s0 s f s' _ h
  unfold ChannelIterator.nextFrame at h
  rcases hm : frameOutput s with _ | ⟨f0, s1⟩
  · rw [hm] at h
    exact Option.noConfusion h
  · rw [hm] at h
    simp only [Option.map_some', Option.some.injEq, Prod.mk.injEq] at h
    obtain ⟨-, hs⟩ := h
    subst hs
    obtain ⟨e1, e2, e3, -⟩ := frameOutput_volume_fields hm
    obtain ⟨c1, c2, c3⟩ := frameTick_fade_cases s1
    simp only [e1, e2, e3] at c1 c2 c3
    exact ⟨c1, c2, c3⟩

/-- A tiny SFX-noise command stream: `NoiseNote` (length nibble 0,
volume 15, fade −7, parameter byte 0). -/
def rom_c2 : List Nat := [0x20, 0xFF, 0x00]

/-- The channel state reached from
`ChannelIterator.new 0 .SfxNoise 0 0x100` after processing the
`NoiseNote` of `rom_c2`: `volume_fade = -7`, `volume_fade_delay = 1`. -/
def state_c2 : ChannelIterator :=
  { ChannelIterator.new 0 .SfxNoise 0 0x100 with
    addr := 3, note_delay := 1, volume := 15, volume_fade := -7,
    volume_fade_delay := 1 }

/-- Claim C2 (counterexample): at the reachable state `state_c2`
(`volume_fade = -7`, `volume_fade_delay = 1`), the end of the next frame
resets the delay to `(-7) & 0b111 = 1`, not to `|-7| & 7 = 7` as the
claim states. -/
theorem c2_counterexample :
    Reach rom_c2 0 (ChannelIterator.new 0 .SfxNoise 0 0x100) state_c2 ∧
    state_c2.volume_fade = -7 ∧ state_c2.volume_fade_delay = 1 ∧
    (ChannelIterator.nextFrame state_c2).map (fun fs => fs.2.volume_fade_delay) =
      some 1 ∧
    Int.natAbs (-7) &&& 7 = 7 ∧ (1 : Nat) ≠ 7 := by
  exact ⟨Reach.cmd Reach.init rfl rfl (by with_unfolding_all rfl), rfl, rfl,
    by with_unfolding_all rfl, by decide, by decide⟩

/-- Witness for the amended C2 theorem at the concrete reachable state
`state_c2`: the delay is reset to `(-7) mod 8 = 1` and the volume stays
at 15 (the fade is negative but the volume is already 15). -/
theorem c2_volume_fade_envelope_witness :
    state_c2.volume_fade_delay = 1 ∧
    (ChannelIterator.nextFrame state_c2).map
        (fun fs => (fs.2.volume_fade_delay, fs.2.volume)) =
      some (((-7 : Int) % 8).toNat, 15) := by
  obtain ⟨f, s', hf⟩ : ∃ f s', ChannelIterator.nextFrame state_c2 = some (f, s') :=
    ⟨_, _, by with_unfolding_all rfl⟩
  have hr : Reach rom_c2 0 (ChannelIterator.new 0 .SfxNoise 0 0x100) state_c2 :=
    Reach.cmd Reach.init rfl rfl (by with_unfolding_all rfl)
  have h := (c2_volume_fade_envelope rom_c2 0
    (ChannelIterator.new 0 .SfxNoise 0 0x100) state_c2 f s' hr hf).1 rfl
  rw [hf]
  simp only [Option.map_some', Option.some.injEq, Prod.mk.injEq]
  refine ⟨rfl, h.1, ?_⟩
  rw [h.2]
  norm_num [state_c2]

/-- The shift of the noise parameters is always at most 13. -/
lemma noiseShift_le (p : Nat) : noiseShift p ≤ 13 := by
  simp only [noiseShift]
  split
  · exact Nat.and_le_right
  · omega

/-- The divider of the noise parameters is always at most 7. -/
lemma noiseDivider_le (p : Nat) : noiseDivider p ≤ 7 :=
  Nat.and_le_right

/-- The truncated `f64` advance-interval product, tabulated over the
(finite) shift and divider ranges. -/
lemma noiseStepSize_table :
    ∀ (k : Fin 14) (d : Fin 8),
      (⌊2 * (if (d : Nat) = 0 then (0.5 : ℚ) else ((d : Nat) : ℚ)) *
          ((1 <<< ((k : Nat) + 1) : Nat) : ℚ)⌋).toNat =
        (if (d : Nat) = 0 then 2 ^ ((k : Nat) + 1) else (d : Nat) * 2 ^ ((k : Nat) + 2)) := by
  exact of_decide_eq_true (by with_unfolding_all rfl)

/-- The exact value of the noise advance-interval: the truncated `f64`
product equals `2^(shift+1)` for divider 0 and `divider * 2^(shift+2)`
otherwise. -/
lemma noiseStepSize_eq (p : Nat) :
    noiseStepSize p =
      (if noiseDivider p = 0 then 2 ^ (noiseShift p + 1)
       else noiseDivider p * 2 ^ (noiseShift p + 2)) := by
  have hk : noiseShift p ≤ 13 := noiseShift_le p
  have hd : noiseDivider p ≤ 7 := noiseDivider_le p
  have h := noiseStepSize_table ⟨noiseShift p, by omega⟩ ⟨noiseDivider p, by omega⟩
  simpa [noiseStepSize] using h

/-- Claim C3 (amended): in noise-frame synthesis the LFSR advance
interval is `step = floor(2 * divider' * 2^(shift+1))` with
`divider' = 0.5` when the divider bits are zero (equivalently
`2^(shift+1)`, resp. `divider * 2^(shift+2)`), and the LFSR is advanced
at every sample whose 0-based index **within the current frame** is
divisible by `step` — the index restarts at each frame, so in particular
the LFSR advances on the very first sample of every frame; it is not a
running 1-based lifetime index. -/
theorem c3_noise_lfsr_cadence :
    ∀ (rom : List Nat) (bank : Nat) (s0 s : ChannelIterator)
      (f : List ℚ) (s' : ChannelIterator),
      Reach rom bank s0 s → s.channel = .SfxNoise →
      frameOutput s = some (f, s') →
      noiseStepSize s.noise_params =
        (if noiseDivider s.noise_params = 0 then 2 ^ (noiseShift s.noise_params + 1)
         else noiseDivider s.noise_params * 2 ^ (noiseShift s.noise_params + 2)) ∧
      f = noiseSamples s.volume (noiseStepSize s.noise_params)
        (noiseWidth s.noise_params) s.noise_buffer 0 SAMPLES_PER_FRAME ∧
      s'.noise_buffer = noiseBufferAfter (noiseStepSize s.noise_params)
        (noiseWidth s.noise_params) s.noise_buffer 0 SAMPLES_PER_FRAME ∧
      noiseStepBuf (noiseStepSize s.noise_params) (noiseWidth s.noise_params) 0
        s.noise_buffer = noiseAdvance (noiseWidth s.noise_params) s.noise_buffer := by
  intro rom bank s0 s f s' _ hch hf
  unfold frameOutput at hf
  rw [hch] at hf
  simp only [Option.some.injEq, Prod.mk.injEq] at hf
  obtain ⟨h1, h2⟩ := hf
  refine ⟨noiseStepSize_eq s.noise_params, h1.symm, ?_, ?_⟩
  · rw [← h2]
  · unfold noiseStepBuf
    rw [if_pos (Nat.zero_mod _)]

/-- Modelled from claim C3's words, for comparison with the source: the
noise sample loop with the LFSR advanced on every step-th sample of a
running **1-based** lifetime index (`pos` samples were already emitted
before this one). -/
def noiseSamplesLifetime (volume step : Nat) (width : Bool) (buffer pos : Nat) :
    Nat → List ℚ
  | 0 => []
  | n + 1 =>
    sample ((1 ^^^ buffer % 2 : Nat) : Int) (volume : Int) ::
      noiseSamplesLifetime volume step width
        (if (pos + 1) % step = 0 then noiseAdvance width buffer else buffer) (pos + 1) n

/-- A tiny SFX-noise command stream: `NoiseNote` (length nibble 0,
volume 15, fade 0, parameter byte 0, so shift 0, divider 0, step 2). -/
def rom_c3 : List Nat := [0x20, 0xF0, 0x00]

/-- The channel state reached from
`ChannelIterator.new 0 .SfxNoise 0 0x100` after processing the
`NoiseNote` of `rom_c3`. -/
def state_c3 : ChannelIterator :=
  { ChannelIterator.new 0 .SfxNoise 0 0x100 with
    addr := 3, note_delay := 1, volume := 15 }

/-- Claim C3 (counterexample): at the reachable noise state `state_c3`
(step = 2, LFSR = 0x7FFF), the frame the code synthesizes and the frame
prescribed by the claim's running 1-based lifetime cadence already
differ at sample index 29 of the very first frame: the code advances the
LFSR at frame-local indices 0, 2, 4, …, the claim at lifetime indices
2, 4, 6, …. -/
theorem c3_counterexample :
    Reach rom_c3 0 (ChannelIterator.new 0 .SfxNoise 0 0x100) state_c3 ∧
    state_c3.channel = .SfxNoise ∧
    noiseStepSize state_c3.noise_params = 2 ∧
    (frameOutput state_c3).map (fun fs => fs.1.get? 29) = some (some (sample 1 15)) ∧
    (noiseSamplesLifetime state_c3.volume 2 (noiseWidth state_c3.noise_params)
        state_c3.noise_buffer 0 SAMPLES_PER_FRAME).get? 29 = some (sample 0 15) ∧
    sample 1 15 ≠ sample 0 15 := by
  refine ⟨Reach.cmd Reach.init rfl rfl (by with_unfolding_all rfl), rfl,
    by with_unfolding_all rfl, by with_unfolding_all rfl, by with_unfolding_all rfl, ?_⟩
  norm_num [sample]

/-- Witness for the amended C3 theorem at the concrete reachable state
`state_c3`. -/
theorem c3_noise_lfsr_cadence_witness :
    noiseStepSize state_c3.noise_params = 2 ∧
    (frameOutput state_c3).map Prod.fst =
      some (noiseSamples state_c3.volume (noiseStepSize state_c3.noise_params)
        (noiseWidth state_c3.noise_params) state_c3.noise_buffer 0 SAMPLES_PER_FRAME) ∧
    noiseStepBuf (noiseStepSize state_c3.noise_params)
        (noiseWidth state_c3.noise_params) 0 state_c3.noise_buffer =
      noiseAdvance (noiseWidth state_c3.noise_params) state_c3.noise_buffer := by
  obtain ⟨f, s', hf⟩ : ∃ f s', frameOutput state_c3 = some (f, s') := ⟨_, _, rfl⟩
  have hr : Reach rom_c3 0 (ChannelIterator.new 0 .SfxNoise 0 0x100) state_c3 :=
    Reach.cmd Reach.init rfl rfl (by with_unfolding_all rfl)
  have h := c3_noise_lfsr_cadence rom_c3 0 (ChannelIterator.new 0 .SfxNoise 0 0x100)
    state_c3 f s' hr rfl hf
  refine ⟨by with_unfolding_all rfl, ?_, h.2.2.2⟩
  rw [hf]
  exact congrArg some h.2.1

/-- Every fetched ROM byte is a `u8`. -/
lemma byteAt_le {rom : List Nat} {pos x : Nat} (h : byteAt rom pos = some x) :
    x ≤ 255 := by
  unfold byteAt at h
  rcases hb : rom[pos]? with _ | b
  · rw [hb] at h
    exact Option.noConfusion h
  · rw [hb] at h
    simp only [Option.map_some', Option.some.injEq] at h
    omega

/-- The volume nibble carried by a decoded note command. -/
def cmdVolumeOk : Command → Prop
  | .SquareNote _ v _ _ => v ≤ 15
  | .NoiseNote _ v _ _ => v ≤ 15
  | _ => True

/-- `parse_sfx_pulse` yields bounded volume nibbles. -/
lemma parseSfxPulse_volumeOk {b0 : Nat} {b1 b2 b3 : Option Nat}
    (hx : ∀ x, b1 = some x → x ≤ 255) {c : Command}
    (h : parseSfxPulse b0 b1 b2 b3 = some c) : cmdVolumeOk c := by
  unfold parseSfxPulse at h
  iterate 14 (all_goals try split at h)
  all_goals try exact Option.noConfusion h
  all_goals injection h with h
  all_goals subst h
  all_goals simp_all [cmdVolumeOk, Nat.shiftRight_eq_div_pow]
  all_goals omega

/-- `parse_sfx_noise` yields bounded volume nibbles. -/
lemma parseSfxNoise_volumeOk {b0 : Nat} {b1 b2 b3 : Option Nat}
    (hx : ∀ x, b1 = some x → x ≤ 255) {c : Command}
    (h : parseSfxNoise b0 b1 b2 b3 = some c) : cmdVolumeOk c := by
  unfold parseSfxNoise at h
  iterate 14 (all_goals try split at h)
  all_goals try exact Option.noConfusion h
  all_goals injection h with h
  all_goals subst h
  all_goals simp_all [cmdVolumeOk, Nat.shiftRight_eq_div_pow]
  all_goals omega

/-- `parse_music_pulse` yields bounded volume nibbles (it never produces
a `SquareNote` or `NoiseNote`). -/
lemma parseMusicPulse_volumeOk {b0 : Nat} {b1 b2 b3 : Option Nat} {c : Command}
    (h : parseMusicPulse b0 b1 b2 b3 = some c) : cmdVolumeOk c := by
  delta parseMusicPulse at h
  by_cases h1 : b0 ≤ 0xbf
  · rw [if_pos h1] at h
    cases b1 <;> cases b2 <;> cases b3 <;> simp_all [cmdVolumeOk] <;> (subst h; trivial)
  rw [if_neg h1] at h
  by_cases h2 : b0 ≤ 0xcf
  · rw [if_pos h2] at h
    cases b1 <;> cases b2 <;> cases b3 <;> simp_all [cmdVolumeOk] <;> (subst h; trivial)
  rw [if_neg h2] at h
  by_cases h3 : b0 ≤ 0xdf
  · rw [if_pos h3] at h
    cases b1 <;> cases b2 <;> cases b3 <;> simp_all [cmdVolumeOk] <;> (subst h; trivial)
  rw [if_neg h3] at h
  by_cases h4 : b0 ≤ 0xe7
  · rw [if_pos h4] at h
    cases b1 <;> cases b2 <;> cases b3 <;> simp_all [cmdVolumeOk] <;> (subst h; trivial)
  rw [if_neg h4] at h
  by_cases h5 : b0 = 0xe8
  · rw [if_pos h5] at h
    cases b1 <;> cases b2 <;> cases b3 <;> simp_all [cmdVolumeOk] <;> (subst h; trivial)
  rw [if_neg h5] at h
  by_cases h6 : b0 = 0xea
  · rw [if_pos h6] at h
    cases b1 <;> cases b2 <;> cases b3 <;> simp_all [cmdVolumeOk] <;> (subst h; trivial)
  rw [if_neg h6] at h
  by_cases h7 : b0 = 0xeb
  · rw [if_pos h7] at h
    cases b1 <;> cases b2 <;> cases b3 <;> simp_all [cmdVolumeOk] <;> (subst h; trivial)
  rw [if_neg h7] at h
  by_cases h8 : b0 = 0xec
  · rw [if_pos h8] at h
    cases b1 <;> cases b2 <;> cases b3 <;> simp_all [cmdVolumeOk] <;> (subst h; trivial)
  rw [if_neg h8] at h
  by_cases h9 : b0 = 0xed
  · rw [if_pos h9] at h
    cases b1 <;> cases b2 <;> cases b3 <;> simp_all [cmdVolumeOk] <;> (subst h; trivial)
  rw [if_neg h9] at h
  by_cases h10 : b0 = 0xf0
  · rw [if_pos h10] at h
    cases b1 <;> cases b2 <;> cases b3 <;> simp_all [cmdVolumeOk] <;> (subst h; trivial)
  rw [if_neg h10] at h
  by_cases h11 : b0 = 0xf8
  · rw [if_pos h11] at h
    cases b1 <;> cases b2 <;> cases b3 <;> simp_all [cmdVolumeOk] <;> (subst h; trivial)
  rw [if_neg h11] at h
  by_cases h12 : b0 = 0xfc
  · rw [if_pos h12] at h
    cases b1 <;> cases b2 <;> cases b3 <;> simp_all [cmdVolumeOk] <;> (subst h; trivial)
  rw [if_neg h12] at h
  by_cases h13 : b0 = 0xfd
  · rw [if_pos h13] at h
    cases b1 <;> cases b2 <;> cases b3 <;> simp_all [cmdVolumeOk] <;> (subst h; trivial)
  rw [if_neg h13] at h
  by_cases h14 : b0 = 0xfe
  · rw [if_pos h14] at h
    cases b1 <;> cases b2 <;> cases b3 <;> simp_all [cmdVolumeOk] <;> (subst h; trivial)
  rw [if_neg h14] at h
  by_cases h15 : b0 = 0xff
  · rw [if_pos h15] at h
    cases b1 <;> cases b2 <;> cases b3 <;> simp_all [cmdVolumeOk] <;> (subst h; trivial)
  rw [if_neg h15] at h
  exact Option.noConfusion h

/-- `parse_music_wave` yields bounded volume nibbles. -/
lemma parseMusicWave_volumeOk {b0 : Nat} {b1 b2 b3 : Option Nat} {c : Command}
    (h : parseMusicWave b0 b1 b2 b3 = some c) : cmdVolumeOk c := by
  delta parseMusicWave at h
  by_cases h1 : b0 ≤ 0xbf
  · rw [if_pos h1] at h
    cases b1 <;> cases b2 <;> cases b3 <;> simp_all [cmdVolumeOk] <;> (subst h; trivial)
  rw [if_neg h1] at h
  by_cases h2 : b0 ≤ 0xcf
  · rw [if_pos h2] at h
    cases b1 <;> cases b2 <;> cases b3 <;> simp_all [cmdVolumeOk] <;> (subst h; trivial)
  rw [if_neg h2] at h
  by_cases h3 : b0 ≤ 0xdf
  · rw [if_pos h3] at h
    cases b1 <;> cases b2 <;> cases b3 <;> simp_all [cmdVolumeOk] <;> (subst h; trivial)
  rw [if_neg h3] at h
  by_cases h4 : b0 ≤ 0xe7
  · rw [if_pos h4] at h
    cases b1 <;> cases b2 <;> cases b3 <;> simp_all [cmdVolumeOk] <;> (subst h; trivial)
  rw [if_neg h4] at h
  by_cases h5 : b0 = 0xe8
  · rw [if_pos h5] at h
    cases b1 <;> cases b2 <;> cases b3 <;> simp_all [cmdVolumeOk] <;> (subst h; trivial)
  rw [if_neg h5] at h
  by_cases h6 : b0 = 0xea
  · rw [if_pos h6] at h
    cases b1 <;> cases b2 <;> cases b3 <;> simp_all [cmdVolumeOk] <;> (subst h; trivial)
  rw [if_neg h6] at h
  by_cases h7 : b0 = 0xeb
  · rw [if_pos h7] at h
    cases b1 <;> cases b2 <;> cases b3 <;> simp_all [cmdVolumeOk] <;> (subst h; trivial)
  rw [if_neg h7] at h
  by_cases h8 : b0 = 0xed
  · rw [if_pos h8] at h
    cases b1 <;> cases b2 <;> cases b3 <;> simp_all [cmdVolumeOk] <;> (subst h; trivial)
  rw [if_neg h8] at h
  by_cases h9 : b0 = 0xf8
  · rw [if_pos h9] at h
    cases b1 <;> cases b2 <;> cases b3 <;> simp_all [cmdVolumeOk] <;> (subst h; trivial)
  rw [if_neg h9] at h
  by_cases h10 : b0 = 0xfd
  · rw [if_pos h10] at h
    cases b1 <;> cases b2 <;> cases b3 <;> simp_all [cmdVolumeOk] <;> (subst h; trivial)
  rw [if_neg h10] at h
  by_cases h11 : b0 = 0xfe
  · rw [if_pos h11] at h
    cases b1 <;> cases b2 <;> cases b3 <;> simp_all [cmdVolumeOk] <;> (subst h; trivial)
  rw [if_neg h11] at h
  by_cases h12 : b0 = 0xff
  · rw [if_pos h12] at h
    cases b1 <;> cases b2 <;> cases b3 <;> simp_all [cmdVolumeOk] <;> (subst h; trivial)
  rw [if_neg h12] at h
  exact Option.noConfusion h

/-- `parse_music_noise` yields bounded volume nibbles. -/
lemma parseMusicNoise_volumeOk {b0 : Nat} {b1 b2 b3 : Option Nat} {c : Command}
    (h : parseMusicNoise b0 b1 b2 b3 = some c) : cmdVolumeOk c := by
  delta parseMusicNoise at h
  by_cases h1 : b0 < 0xb0
  · rw [if_pos h1] at h
    cases b1 <;> cases b2 <;> cases b3 <;> simp_all [cmdVolumeOk] <;> (subst h; trivial)
  rw [if_neg h1] at h
  by_cases h2 : b0 ≤ 0xbf
  · rw [if_pos h2] at h
    cases b1 <;> cases b2 <;> cases b3 <;> simp_all [cmdVolumeOk] <;> (subst h; trivial)
  rw [if_neg h2] at h
  by_cases h3 : b0 ≤ 0xcf
  · rw [if_pos h3] at h
    cases b1 <;> cases b2 <;> cases b3 <;> simp_all [cmdVolumeOk] <;> (subst h; trivial)
  rw [if_neg h3] at h
  by_cases h4 : b0 ≤ 0xdf
  · rw [if_pos h4] at h
    cases b1 <;> cases b2 <;> cases b3 <;> simp_all [cmdVolumeOk] <;> (subst h; trivial)
  rw [if_neg h4] at h
  by_cases h5 : b0 = 0xfd
  · rw [if_pos h5] at h
    cases b1 <;> cases b2 <;> cases b3 <;> simp_all [cmdVolumeOk] <;> (subst h; trivial)
  rw [if_neg h5] at h
  by_cases h6 : b0 = 0xfe
  · rw [if_pos h6] at h
    cases b1 <;> cases b2 <;> cases b3 <;> simp_all [cmdVolumeOk] <;> (subst h; trivial)
  rw [if_neg h6] at h
  by_cases h7 : b0 = 0xff
  · rw [if_pos h7] at h
    cases b1 <;> cases b2 <;> cases b3 <;> simp_all [cmdVolumeOk] <;> (subst h; trivial)
  rw [if_neg h7] at h
  exact Option.noConfusion h

/-- `parse_sfx_wave` yields bounded volume nibbles. -/
lemma parseSfxWave_volumeOk {b0 : Nat} {c : Command}
    (h : parseSfxWave b0 = some c) : cmdVolumeOk c := by
  unfold parseSfxWave at h
  split at h
  · injection h with h
    subst h
    trivial
  · exact Option.noConfusion h

/-- Every command the decoder produces carries a volume nibble of at
most 15 (it is a `u8` shifted right by 4). -/
lemma parse_cmdVolumeOk {rom : List Nat} {bank addr : Nat} {ch : ChannelType}
    {c : Command} (h : Command.parse rom bank addr ch = some c) : cmdVolumeOk c := by
  simp only [Command.parse] at h
  rcases hb0 : byteAt rom (bank * 0x4000 + addr % 0x4000) with _ | b0
  · rw [hb0] at h
    exact Option.noConfusion h
  rw [hb0] at h
  have hx : ∀ x, byteAt rom (bank * 0x4000 + addr % 0x4000 + 1) = some x → x ≤ 255 :=
    fun x e => byteAt_le e
  cases ch
  · exact parseMusicPulse_volumeOk h
  · exact parseMusicWave_volumeOk h
  · exact parseMusicNoise_volumeOk h
  · exact parseSfxPulse_volumeOk hx h
  · exact parseSfxWave_volumeOk h
  · exact parseSfxNoise_volumeOk hx h

/-- A command effect never touches `period_count`, keeps the volume in
range, and can only reset the noise buffer to `0x7FFF`. -/
lemma commandStep_preserves {rom : List Nat} {bank : Nat} {s s' : ChannelIterator}
    (h : commandStep rom bank s = some s') :
    s'.period_count = s.period_count ∧ (s.volume ≤ 15 → s'.volume ≤ 15) ∧
      (s'.noise_buffer = s.noise_buffer ∨ s'.noise_buffer = 0x7fff) := by
  unfold commandStep at h
  rcases hp : Command.parse rom bank s.addr s.channel with _ | cmd
  · rw [hp] at h
    exact Option.noConfusion h
  rw [hp] at h
  have hv := parse_cmdVolumeOk hp
  cases cmd
  all_goals try exact Option.noConfusion h
  all_goals dsimp only at h
  all_goals try (injection h with h; subst h; exact ⟨rfl, fun hb => hb, Or.inl rfl⟩)
  · -- SquareNote
    injection h with h
    subst h
    exact ⟨rfl, fun _ => hv, Or.inl rfl⟩
  · -- NoiseNote
    injection h with h
    subst h
    exact ⟨rfl, fun _ => hv, Or.inr rfl⟩
  · -- Loop
    split_ifs at h
    all_goals injection h with h
    all_goals subst h
    all_goals exact ⟨rfl, fun hb => hb, Or.inl rfl⟩

/-- One pulse-phase tick keeps the phase inside `[0, 1)` (the increment
`1/period` is at most `1/8`). -/
lemma pulse_tick_bounds {period : Nat} (hp : 8 ≤ period) {pc : ℚ}
    (h0 : 0 ≤ pc) (h1 : pc < 1) :
    0 ≤ pulse_tick period pc ∧ pulse_tick period pc < 1 := by
  unfold pulse_tick
  have hper : (8 : ℚ) ≤ (period : ℚ) := by exact_mod_cast hp
  have hpos : (0 : ℚ) < (period : ℚ) := by linarith
  have hinc0 : 0 < 1 / (period : ℚ) := by positivity
  have hinc1 : 1 / (period : ℚ) ≤ 1 / 8 := by
    apply one_div_le_one_div_of_le <;> linarith
  dsimp only
  split_ifs with hge
  · constructor <;> linarith
  · push_neg at hge
    constructor <;> linarith

/-- Iterating the pulse-phase tick keeps the phase inside `[0, 1)`. -/
lemma pulse_pc_after_bounds {period : Nat} (hp : 8 ≤ period) :
    ∀ (n : Nat) (pc : ℚ), 0 ≤ pc → pc < 1 →
      0 ≤ pulse_pc_after period pc n ∧ pulse_pc_after period pc n < 1 := by
  intro n
  induction n with
  | zero => exact fun pc h0 h1 => ⟨h0, h1⟩
  | succ n ih =>
    intro pc h0 h1
    obtain ⟨t0, t1⟩ := pulse_tick_bounds hp h0 h1
    exact ih (pulse_tick period pc) t0 t1

/-- The pulse period computed by the synthesizer is always at least 8
(the masked frequency never exceeds 2047). -/
lemma pulse_period_ge_8 (freq pb : Nat) :
    8 ≤ SOURCE_SAMPLE_RATE * (2048 - (freq + pb) % 2048) / 131072 := by
  have hm : (freq + pb) % 2048 ≤ 2047 := by omega
  have h1 : 1 ≤ 2048 - (freq + pb) % 2048 := by omega
  have he : SOURCE_SAMPLE_RATE * (2048 - (freq + pb) % 2048) / 131072 =
      8 * (2048 - (freq + pb) % 2048) := by
    unfold SOURCE_SAMPLE_RATE
    rw [show (1048576 : Nat) = 8 * 131072 by norm_num, Nat.mul_assoc,
      Nat.mul_comm 131072 _, ← Nat.mul_assoc, Nat.mul_div_cancel _ (by norm_num)]
  rw [he]
  omega

set_option maxRecDepth 2000 in
/-- Frame generation keeps the phase inside `[0, 1)`. -/
lemma frameOutput_pc_bounds {s s1 : ChannelIterator} {f : List ℚ}
    (h : frameOutput s = some (f, s1)) (h0 : 0 ≤ s.period_count)
    (h1 : s.period_count < 1) :
    0 ≤ s1.period_count ∧ s1.period_count < 1 := by
  unfold frameOutput at h
  split at h
  any_goals exact Option.noConfusion h
  all_goals simp only [Option.some.injEq, Prod.mk.injEq] at h
  all_goals obtain ⟨-, hs⟩ := h
  all_goals subst hs
  · dsimp only
    exact @pulse_pc_after_bounds
      (SOURCE_SAMPLE_RATE * (2048 - (s.freq + pitch_u8 s.pitch) % 2048) / 131072)
      (pulse_period_ge_8 s.freq (pitch_u8 s.pitch)) SAMPLES_PER_FRAME
      s.period_count h0 h1
  · exact ⟨h0, h1⟩

/-- The note-delay tick never touches `period_count`. -/
lemma noteDelayTick_period_count (s : ChannelIterator) :
    (noteDelayTick s).period_count = s.period_count := by
  unfold noteDelayTick
  split <;> rfl

/-- The volume-fade tick never touches `period_count`. -/
lemma volumeFadeTick_period_count (s : ChannelIterator) :
    (volumeFadeTick s).period_count = s.period_count := by
  unfold volumeFadeTick
  split
  · rfl
  · dsimp only
    split_ifs <;> rfl
  · rfl

/-- The pitch-sweep tick never touches `period_count`. -/
lemma pitchSweepTick_period_count (s : ChannelIterator) :
    (pitchSweepTick s).period_count = s.period_count := by
  unfold pitchSweepTick
  split <;> rfl

/-- The per-frame post-ticks never touch `period_count`. -/
lemma frameTick_period_count (x : ChannelIterator) :
    (frameTick x).period_count = x.period_count := by
  unfold frameTick
  rw [pitchSweepTick_period_count, volumeFadeTick_period_count,
    noteDelayTick_period_count]

/-- The per-frame post-ticks keep the volume in range. -/
lemma frameTick_volume_le {x : ChannelIterator} (h : x.volume ≤ 15) :
    (frameTick x).volume ≤ 15 := by
  obtain ⟨c1, c2, c3⟩ := frameTick_fade_cases x
  rcases hd : x.volume_fade_delay with _ | _ | k
  · exact (c3 hd).2 ▸ h
  · obtain ⟨-, hvol⟩ := c1 hd
    rw [hvol]
    split_ifs <;> omega
  · obtain ⟨-, hvol⟩ := c2 (by omega)
    exact hvol ▸ h

/-- Claim C5: every reachable channel-iterator state keeps
`volume ∈ 0..=15` and `period_count ∈ [0, 1)`: the initial state
satisfies both bounds and every command effect and per-frame update
preserves them. -/
theorem c5_volume_period_count_invariant :
    ∀ (rom : List Nat) (bank addr : Nat) (ch : ChannelType) (pitch : Int)
      (length : Nat) (s : ChannelIterator),
      Reach rom bank (ChannelIterator.new addr ch pitch length) s →
      s.volume ≤ 15 ∧ 0 ≤ s.period_count ∧ s.period_count < 1 := by
  intro rom bank addr ch pitch length s h
  induction h with
  | init => exact ⟨by norm_num [ChannelIterator.new], le_refl 0, by norm_num [ChannelIterator.new]⟩
  | cmd hr hnd hdone hstep ih =>
    obtain ⟨hpc, hvol, -⟩ := commandStep_preserves hstep
    exact ⟨hvol ih.1, hpc ▸ ih.2.1, hpc ▸ ih.2.2⟩
  | frame hr hgen hnz hstep ih =>
    rename_i b b' fdata
    unfold ChannelIterator.nextFrame at hstep
    rcases hm : frameOutput b with _ | ⟨f0, s1⟩
    · rw [hm] at hstep
      exact Option.noConfusion hstep
    · rw [hm] at hstep
      simp only [Option.map_some', Option.some.injEq, Prod.mk.injEq] at hstep
      obtain ⟨-, hs⟩ := hstep
      subst hs
      obtain ⟨ev, -, -, -⟩ := frameOutput_volume_fields hm
      obtain ⟨p0, p1⟩ := frameOutput_pc_bounds hm ih.2.1 ih.2.2
      refine ⟨frameTick_volume_le (ev ▸ ih.1), ?_, ?_⟩
      · rw [frameTick_period_count]
        exact p0
      · rw [frameTick_period_count]
        exact p1

/-- Witness for C5 at a concrete reachable state (the initial state of a
fresh SFX-pulse channel). -/
theorem c5_volume_period_count_invariant_witness :
    (ChannelIterator.new 0 .SfxPulse (-1) 0x100).volume ≤ 15 ∧
      0 ≤ (ChannelIterator.new 0 .SfxPulse (-1) 0x100).period_count ∧
      (ChannelIterator.new 0 .SfxPulse (-1) 0x100).period_count < 1 :=
  c5_volume_period_count_invariant [] 0 0 .SfxPulse (-1) 0x100 _ Reach.init

/-- One LFSR advance maps a 15-bit buffer to a 15-bit buffer. -/
lemma noiseAdvance_le {w : Bool} {b : Nat} (h : b ≤ 0x7fff) :
    noiseAdvance w b ≤ 0x7fff := by
  unfold noiseAdvance
  have hb2 : b >>> 1 < 2 ^ 15 := by
    rw [Nat.shiftRight_eq_div_pow]
    omega
  have hx : b % 2 ^^^ b >>> 1 % 2 ≤ 1 := by
    have h1 : b % 2 = 0 ∨ b % 2 = 1 := by omega
    have h2 : b >>> 1 % 2 = 0 ∨ b >>> 1 % 2 = 1 := by omega
    rcases h1 with h1 | h1 <;> rcases h2 with h2 | h2 <;> rw [h1, h2] <;> decide
  have hsh : (b % 2 ^^^ b >>> 1 % 2) <<< 14 < 2 ^ 15 := by
    rw [Nat.shiftLeft_eq]
    omega
  have hor : b >>> 1 ||| (b % 2 ^^^ b >>> 1 % 2) <<< 14 < 2 ^ 15 :=
    Nat.or_lt_two_pow hb2 hsh
  dsimp only
  split_ifs
  · have hb2' : (b >>> 1 ||| (b % 2 ^^^ b >>> 1 % 2) <<< 14) >>> 1 < 2 ^ 15 := by
      rw [Nat.shiftRight_eq_div_pow]
      omega
    have hsh' : (b % 2 ^^^ b >>> 1 % 2) <<< 6 < 2 ^ 15 := by
      rw [Nat.shiftLeft_eq]
      omega
    have := Nat.or_lt_two_pow hb2' hsh'
    omega
  · omega

/-- The guarded LFSR update preserves the 15-bit bound. -/
lemma noiseStepBuf_le {step : Nat} {w : Bool} {i b : Nat} (h : b ≤ 0x7fff) :
    noiseStepBuf step w i b ≤ 0x7fff := by
  unfold noiseStepBuf
  split_ifs
  · exact noiseAdvance_le h
  · exact h

/-- A whole frame of guarded LFSR updates preserves the 15-bit bound. -/
lemma noiseBufferAfter_le {step : Nat} {w : Bool} :
    ∀ (n i b : Nat), b ≤ 0x7fff → noiseBufferAfter step w b i n ≤ 0x7fff := by
  intro n
  induction n with
  | zero => exact fun i b h => h
  | succ n ih => exact fun i b h => ih (i + 1) _ (noiseStepBuf_le h)

/-- Frame generation preserves the 15-bit noise-buffer bound. -/
lemma frameOutput_noise_buffer {s s1 : ChannelIterator} {f : List ℚ}
    (h : frameOutput s = some (f, s1)) (hb : s.noise_buffer ≤ 0x7fff) :
    s1.noise_buffer ≤ 0x7fff := by
  unfold frameOutput at h
  split at h
  any_goals exact Option.noConfusion h
  all_goals simp only [Option.some.injEq, Prod.mk.injEq] at h
  all_goals obtain ⟨-, hs⟩ := h
  all_goals subst hs
  all_goals dsimp only
  · exact hb
  · exact noiseBufferAfter_le _ _ _ hb

/-- The note-delay tick never touches the noise buffer. -/
lemma noteDelayTick_noise_buffer (s : ChannelIterator) :
    (noteDelayTick s).noise_buffer = s.noise_buffer := by
  unfold noteDelayTick
  split <;> rfl

/-- The volume-fade tick never touches the noise buffer. -/
lemma volumeFadeTick_noise_buffer (s : ChannelIterator) :
    (volumeFadeTick s).noise_buffer = s.noise_buffer := by
  unfold volumeFadeTick
  split
  · rfl
  · dsimp only
    split_ifs <;> rfl
  · rfl

/-- The pitch-sweep tick never touches the noise buffer. -/
lemma pitchSweepTick_noise_buffer (s : ChannelIterator) :
    (pitchSweepTick s).noise_buffer = s.noise_buffer := by
  unfold pitchSweepTick
  split <;> rfl

/-- The per-frame post-ticks never touch the noise buffer. -/
lemma frameTick_noise_buffer (x : ChannelIterator) :
    (frameTick x).noise_buffer = x.noise_buffer := by
  unfold frameTick
  rw [pitchSweepTick_noise_buffer, volumeFadeTick_noise_buffer,
    noteDelayTick_noise_buffer]

/-- Claim C10: in every reachable channel-iterator state the noise
buffer fits in 15 bits (`0..=0x7FFF`): it starts at `0x7FFF`, every
`NoiseNote` resets it to `0x7FFF`, and each guarded LFSR update maps a
15-bit value to a 15-bit value. -/
theorem c10_noise_buffer_15_bits :
    ∀ (rom : List Nat) (bank addr : Nat) (ch : ChannelType) (pitch : Int)
      (length : Nat) (s : ChannelIterator),
      Reach rom bank (ChannelIterator.new addr ch pitch length) s →
      s.noise_buffer ≤ 0x7fff := by
  intro rom bank addr ch pitch length s h
  induction h with
  | init => norm_num [ChannelIterator.new]
  | cmd hr hnd hdone hstep ih =>
    obtain ⟨-, -, hb⟩ := commandStep_preserves hstep
    rcases hb with hb | hb
    · exact hb ▸ ih
    · omega
  | frame hr hgen hnz hstep ih =>
    rename_i b b' fdata
    unfold ChannelIterator.nextFrame at hstep
    rcases hm : frameOutput b with _ | ⟨f0, s1⟩
    · rw [hm] at hstep
      exact Option.noConfusion hstep
    · rw [hm] at hstep
      simp only [Option.map_some', Option.some.injEq, Prod.mk.injEq] at hstep
      obtain ⟨-, hs⟩ := hstep
      subst hs
      rw [frameTick_noise_buffer]
      exact frameOutput_noise_buffer hm ih

/-- Witness for C10 at a concrete reachable state (the state `state_c3`
reached after a `NoiseNote`). -/
theorem c10_noise_buffer_15_bits_witness :
    state_c3.noise_buffer ≤ 0x7fff :=
  c10_noise_buffer_15_bits rom_c3 0 0 .SfxNoise 0 0x100 state_c3
    (Reach.cmd Reach.init rfl rfl (by with_unfolding_all rfl))

/-- A successful refill leaves the mixer index unchanged. -/
lemma soundRefill_index {rom : List Nat} {bank fuel : Nat}
    {s s2 : SoundIterator} {done : Bool}
    (h : soundRefill rom bank fuel s = some (s2, done)) : s2.index = s.index := by
  unfold soundRefill at h
  iterate 8 (all_goals try split at h)
  all_goals try exact Option.noConfusion h
  all_goals simp only [Option.some.injEq, Prod.mk.injEq] at h
  all_goals obtain ⟨h1, -⟩ := h
  all_goals subst h1
  all_goals rfl

/-- `SoundIterator::next` returns `None` only at a frame boundary, and
exactly when the refill reports every channel quiet. -/
lemma soundNext_done_inv {rom : List Nat} {bank fuel : Nat} {s : SoundIterator}
    (h : soundNext rom bank fuel s = .done) :
    s.index % SAMPLES_PER_FRAME = 0 ∧
      ∃ s', soundRefill rom bank fuel s = some (s', true) := by
  unfold soundNext at h
  split_ifs at h with hi
  · rcases hr : soundRefill rom bank fuel s with _ | ⟨s2, done⟩
    · rw [hr] at h
      dsimp only at h
      exact MixNextRes.noConfusion h
    · rw [hr] at h
      dsimp only at h
      cases done
      · simp only [Bool.false_eq_true, if_false] at h
        exact MixNextRes.noConfusion h
      · exact ⟨hi, s2, hr ▸ rfl⟩

/-- Every emitted sample advances the mixer index by exactly one. -/
lemma soundNext_sample_index {rom : List Nat} {bank fuel : Nat}
    {s s' : SoundIterator} {q : ℚ}
    (h : soundNext rom bank fuel s = .sample q s') : s'.index = s.index + 1 := by
  unfold soundNext at h
  split_ifs at h with hi
  · rcases hr : soundRefill rom bank fuel s with _ | ⟨s2, done⟩
    · rw [hr] at h
      dsimp only at h
      exact MixNextRes.noConfusion h
    · rw [hr] at h
      dsimp only at h
      cases done
      · simp only [Bool.false_eq_true, if_false] at h
        injection h with hq hs'
        subst hs'
        dsimp only
        rw [soundRefill_index hr]
      · exact MixNextRes.noConfusion h
  · injection h with hq hs'
    subst hs'
    rfl

/-- Emission bookkeeping: a run of `n` samples from state `s` ends at a
frame boundary, so `index + n` is a multiple of the frame size. -/
lemma soundRuns_index {rom : List Nat} {bank fuel : Nat} :
    ∀ {s : SoundIterator} {n : Nat}, SoundRuns rom bank fuel s n →
      (s.index + n) % SAMPLES_PER_FRAME = 0 := by
  intro s n h
  induction h with
  | done hd =>
    obtain ⟨hi, -⟩ := soundNext_done_inv hd
    simpa using hi
  | step hs hrun ih =>
    have he := soundNext_sample_index hs
    rw [he] at ih
    rename_i s0 s1 q m
    rw [show s0.index + (m + 1) = s0.index + 1 + m by omega]
    exact ih

/-- Claim C6: the mixer's sample stream, when it terminates, has length
divisible by 17,556: termination happens only at a frame boundary,
exactly when the refill finds every constituent channel iterator
returning `None`; otherwise all 17,556 samples of the current mixed
frame are served before the next frames are pulled. -/
theorem c6_stream_frame_aligned :
    ∀ (rom : List Nat) (bank fuel : Nat) (snd : Sound) (pitch : Int)
      (length n : Nat),
      SoundRuns rom bank fuel (SoundIterator.new snd pitch length) n →
      n % 17556 = 0 ∧
      ∀ s : SoundIterator, soundNext rom bank fuel s = .done →
        s.index % 17556 = 0 ∧ ∃ s', soundRefill rom bank fuel s = some (s', true) := by
  intro rom bank fuel snd pitch length n h
  constructor
  · have hi := soundRuns_index h
    show n % SAMPLES_PER_FRAME = 0
    simpa [SoundIterator.new] using hi
  · exact fun s hd => soundNext_done_inv hd

/-- A one-channel sound whose stream ends immediately (its command
stream is a bare `Return`). -/
def rom_c6 : List Nat := [0xff]

/-- The channel table for `rom_c6`: a single SFX-pulse channel. -/
def snd_c6 : Sound := ⟨some ⟨0, .SfxPulse⟩, none, none, none⟩

/-- Witness for C6 on the concrete sound `snd_c6`, whose stream
terminates after 0 samples. -/
theorem c6_stream_frame_aligned_witness :
    (0 : Nat) % 17556 = 0 ∧ (SoundIterator.new snd_c6 0 0x100).index % 17556 = 0 := by
  have hd : soundNext rom_c6 0 2 (SoundIterator.new snd_c6 0 0x100) = .done := by
    with_unfolding_all rfl
  have h := c6_stream_frame_aligned rom_c6 0 2 snd_c6 0 0x100 0 (SoundRuns.done hd)
  exact ⟨h.1, (h.2 _ hd).1⟩

/-- Serving the rest of a buffered frame: if the run continues at index
`i + k` (a frame boundary) with `n` samples, then from index `i` it
continues with `n + k` samples, one per serve step. -/
lemma serve_chain {rom : List Nat} {bank cf : Nat} :
    ∀ (k : Nat) (p1 p2 w nz : Option ChannelIterator) (i : Nat) (b : List ℚ)
      (n : Nat),
      (i + k) % SAMPLES_PER_FRAME = 0 → k < SAMPLES_PER_FRAME →
      SoundRuns rom bank cf ⟨p1, p2, w, nz, i + k, b⟩ n →
      SoundRuns rom bank cf ⟨p1, p2, w, nz, i, b⟩ (n + k) := by
  intro k
  induction k with
  | zero =>
    intro p1 p2 w nz i b n hmod hk hrun
    simpa using hrun
  | succ k ihk =>
    intro p1 p2 w nz i b n hmod hk hrun
    have hne : ¬(i % SAMPLES_PER_FRAME = 0) := by
      simp only [SAMPLES_PER_FRAME] at hmod hk ⊢
      omega
    have hnext : soundNext rom bank cf ⟨p1, p2, w, nz, i, b⟩ =
        .sample (b.getD (i % SAMPLES_PER_FRAME) 0) ⟨p1, p2, w, nz, i + 1, b⟩ := by
      unfold soundNext
      rw [if_neg hne]
    have hrun' : SoundRuns rom bank cf ⟨p1, p2, w, nz, i + 1 + k, b⟩ n := by
      rw [show i + 1 + k = i + (k + 1) by omega]
      exact hrun
    have hmod' : (i + 1 + k) % SAMPLES_PER_FRAME = 0 := by
      rw [show i + 1 + k = i + (k + 1) by omega]
      exact hmod
    have hc := ihk p1 p2 w nz (i + 1) b n hmod' (by omega) hrun'
    exact SoundRuns.step hnext hc

/-- The emitted stream length is uniquely determined by the start
state. -/
lemma soundRuns_unique {rom : List Nat} {bank cf : Nat} :
    ∀ {s : SoundIterator} {n : Nat}, SoundRuns rom bank cf s n →
      ∀ {m : Nat}, SoundRuns rom bank cf s m → n = m := by
  intro s n h
  induction h with
  | done hd =>
    intro m hm
    cases hm with
    | done _ => rfl
    | step hs _ =>
      rw [hd] at hs
      exact MixNextRes.noConfusion hs
  | step hs hr ih =>
    intro m hm
    cases hm with
    | done hd =>
      rw [hd] at hs
      exact MixNextRes.noConfusion hs
    | step hs2 hr2 =>
      rw [hs] at hs2
      injection hs2 with hq he
      rw [← he] at hr2
      exact congrArg (· + 1) (ih hr2)

/-- Characterization of a refill in terms of the four channel pulls. -/
lemma soundRefill_eq {rom : List Nat} {bank cf : Nat} {s : SoundIterator}
    {r1 r2 r3 r4 : PullRes}
    (h1 : pullFrame rom bank cf s.pulse1 = r1)
    (h2 : pullFrame rom bank cf s.pulse2 = r2)
    (h3 : pullFrame rom bank cf s.wave = r3)
    (h4 : pullFrame rom bank cf s.noise = r4)
    (n1 : r1 ≠ .stuck) (n2 : r2 ≠ .stuck) (n3 : r3 ≠ .stuck) (n4 : r4 ≠ .stuck) :
    soundRefill rom bank cf s = some
      ({ pulse1 := r1.out, pulse2 := r2.out, wave := r3.out, noise := r4.out,
         index := s.index,
         buffer := mixInto (mixInto (mixInto (mixInto
           (List.replicate SAMPLES_PER_FRAME (0 : ℚ)) r1) r2) r3) r4 },
       !(r1.isFrame || r2.isFrame || r3.isFrame || r4.isFrame)) := by
  unfold soundRefill
  rw [h1, h2, h3, h4]
  rcases r1 with _ | c1 | ⟨d1, c1⟩
  · exact absurd rfl n1
  all_goals rcases r2 with _ | c2 | ⟨d2, c2⟩
  all_goals try exact absurd rfl n2
  all_goals rcases r3 with _ | c3 | ⟨d3, c3⟩
  all_goals try exact absurd rfl n3
  all_goals rcases r4 with _ | c4 | ⟨d4, c4⟩
  all_goals try exact absurd rfl n4
  all_goals rfl

/-- A bounded probe count yields a stream run of exactly that many
samples, from any frame-aligned index and any buffer contents. -/
lemma soundRuns_of_count {rom : List Nat} {bank cf : Nat} :
    ∀ (pf : Nat) (s : SoundIterator) (n : Nat),
      soundCount rom bank cf pf s = .bounded n →
      ∀ (i : Nat) (b : List ℚ), i % SAMPLES_PER_FRAME = 0 →
        SoundRuns rom bank cf { s with index := i, buffer := b } n := by
  intro pf
  induction pf with
  | zero =>
    intro s n h
    exact absurd h (by simp [soundCount])
  | succ pf ih =>
    intro s n h i b hi
    unfold soundCount at h
    split at h
    · exact absurd h (by simp)
    split at h
    · exact absurd h (by simp)
    split at h
    · exact absurd h (by simp)
    split at h
    · exact absurd h (by simp)
    split at h
    · exact absurd h (by simp)
    split at h
    · exact absurd h (by simp)
    split at h
    · exact absurd h (by simp)
    split at h
    · exact absurd h (by simp)
    split at h
    · -- every channel was quiet: the stream ends right away
      rename_i a1 ns1 hi1 a2 ns2 hi2 a3 ns3 hi3 a4 ns4 hi4 hflag
      injection h with hn
      subst hn
      refine SoundRuns.done ?_
      have href := @soundRefill_eq rom bank cf
        { s with index := i, buffer := b }
        (pullFrame rom bank cf s.pulse1) (pullFrame rom bank cf s.pulse2)
        (pullFrame rom bank cf s.wave) (pullFrame rom bank cf s.noise)
        rfl rfl rfl rfl ns1 ns2 ns3 ns4
      unfold soundNext
      dsimp only
      rw [if_pos hi, href]
      dsimp only
      rw [if_pos hflag]
    · -- some channel produced a frame: serve it, then recurse
      rename_i a1 ns1 hi1 a2 ns2 hi2 a3 ns3 hi3 a4 ns4 hi4 hflag
      split at h
      · rename_i m heq
        injection h with hn
        subst hn
        have href := @soundRefill_eq rom bank cf
          { s with index := i, buffer := b }
          (pullFrame rom bank cf s.pulse1) (pullFrame rom bank cf s.pulse2)
          (pullFrame rom bank cf s.wave) (pullFrame rom bank cf s.noise)
          rfl rfl rfl rfl ns1 ns2 ns3 ns4
        have hrun := ih _ m heq (i + SAMPLES_PER_FRAME)
          (mixInto (mixInto (mixInto (mixInto
            (List.replicate SAMPLES_PER_FRAME (0 : ℚ))
            (pullFrame rom bank cf s.pulse1)) (pullFrame rom bank cf s.pulse2))
            (pullFrame rom bank cf s.wave)) (pullFrame rom bank cf s.noise))
          (by simp only [SAMPLES_PER_FRAME] at hi ⊢; omega)
        have hrun' : SoundRuns rom bank cf
            ⟨(pullFrame rom bank cf s.pulse1).out, (pullFrame rom bank cf s.pulse2).out,
             (pullFrame rom bank cf s.wave).out, (pullFrame rom bank cf s.noise).out,
             i + 1 + (SAMPLES_PER_FRAME - 1),
             mixInto (mixInto (mixInto (mixInto
               (List.replicate SAMPLES_PER_FRAME (0 : ℚ))
               (pullFrame rom bank cf s.pulse1)) (pullFrame rom bank cf s.pulse2))
               (pullFrame rom bank cf s.wave)) (pullFrame rom bank cf s.noise)⟩ m := by
          rw [show i + 1 + (SAMPLES_PER_FRAME - 1) = i + SAMPLES_PER_FRAME by
            simp only [SAMPLES_PER_FRAME]; try omega]
          exact hrun
        have hchain := serve_chain (SAMPLES_PER_FRAME - 1)
          (pullFrame rom bank cf s.pulse1).out (pullFrame rom bank cf s.pulse2).out
          (pullFrame rom bank cf s.wave).out (pullFrame rom bank cf s.noise).out
          (i + 1)
          (mixInto (mixInto (mixInto (mixInto
            (List.replicate SAMPLES_PER_FRAME (0 : ℚ))
            (pullFrame rom bank cf s.pulse1)) (pullFrame rom bank cf s.pulse2))
            (pullFrame rom bank cf s.wave)) (pullFrame rom bank cf s.noise))
          m
          (by simp only [SAMPLES_PER_FRAME] at hi ⊢; omega)
          (by simp only [SAMPLES_PER_FRAME]; omega)
          hrun'
        rw [show m + SAMPLES_PER_FRAME = m + (SAMPLES_PER_FRAME - 1) + 1 by
          simp only [SAMPLES_PER_FRAME]; try omega]
        have hnext : soundNext rom bank cf { s with index := i, buffer := b } =
            .sample ((mixInto (mixInto (mixInto (mixInto
                (List.replicate SAMPLES_PER_FRAME (0 : ℚ))
                (pullFrame rom bank cf s.pulse1)) (pullFrame rom bank cf s.pulse2))
                (pullFrame rom bank cf s.wave))
                (pullFrame rom bank cf s.noise)).getD (i % SAMPLES_PER_FRAME) 0)
              ⟨(pullFrame rom bank cf s.pulse1).out, (pullFrame rom bank cf s.pulse2).out,
               (pullFrame rom bank cf s.wave).out, (pullFrame rom bank cf s.noise).out,
               i + 1,
               mixInto (mixInto (mixInto (mixInto
                 (List.replicate SAMPLES_PER_FRAME (0 : ℚ))
                 (pullFrame rom bank cf s.pulse1)) (pullFrame rom bank cf s.pulse2))
                 (pullFrame rom bank cf s.wave)) (pullFrame rom bank cf s.noise)⟩ := by
          unfold soundNext
          dsimp only
          rw [if_pos hi, href]
          dsimp only
          rw [if_neg hflag]
        exact SoundRuns.step hnext hchain
      · rename_i hne
        exact absurd h (hne n)

/-- Claim C7: whenever the probe terminates, `total_duration()` is
absent exactly when some channel reported `is_infinite() == Some(true)`
during the probe (the unbounded sentinel); and when the probe is bounded
with `n` samples, the lazily iterated sample stream also has exactly `n`
samples and the duration equals `n / 1_048_576` seconds. -/
theorem c7_total_duration_matches_stream :
    ∀ (rom : List Nat) (bank cf pf : Nat) (p : Pcm),
      soundCount rom bank cf pf (SoundIterator.new p.sound p.pitch p.length) ≠ .stuck →
      ((p.total_duration rom bank cf pf = some none ↔
          soundCount rom bank cf pf (SoundIterator.new p.sound p.pitch p.length) =
            .unbounded) ∧
       ∀ n, soundCount rom bank cf pf (SoundIterator.new p.sound p.pitch p.length) =
           .bounded n →
         SoundRuns rom bank cf (SoundIterator.new p.sound p.pitch p.length) n ∧
         (∀ m, SoundRuns rom bank cf (SoundIterator.new p.sound p.pitch p.length) m →
           m = n) ∧
         p.total_duration rom bank cf pf = some (some ((n : ℚ) / 1048576))) := by
  intro rom bank cf pf p hstuck
  constructor
  · constructor
    · intro hd
      unfold Pcm.total_duration at hd
      rcases hc : soundCount rom bank cf pf
          (SoundIterator.new p.sound p.pitch p.length) with m | _ | _
      · rw [hc] at hd
        dsimp only at hd
        simp at hd
      · rfl
      · exact absurd hc hstuck
    · intro hu
      unfold Pcm.total_duration
      rw [hu]
  · intro n hb
    have hrun : SoundRuns rom bank cf (SoundIterator.new p.sound p.pitch p.length) n := by
      have h0 := soundRuns_of_count pf (SoundIterator.new p.sound p.pitch p.length) n hb
        0 ((SoundIterator.new p.sound p.pitch p.length).buffer) (by simp)
      exact h0
    refine ⟨hrun, fun m hm => soundRuns_unique hm hrun, ?_⟩
    unfold Pcm.total_duration
    rw [hb]
    simp [SOURCE_SAMPLE_RATE]

/-- Witness for C7 on the concrete one-channel sound `snd_c6`: the probe
reports 0 samples, the stream emits 0 samples, and the duration is 0
seconds. -/
theorem c7_total_duration_matches_stream_witness :
    SoundRuns rom_c6 0 2 (SoundIterator.new snd_c6 0 0x100) 0 ∧
    Pcm.total_duration rom_c6 0 2 1 ⟨0, 0x100, snd_c6⟩ =
      some (some ((0 : ℚ) / 1048576)) := by
  have h := (c7_total_duration_matches_stream rom_c6 0 2 1 ⟨0, 0x100, snd_c6⟩
    (of_decide_eq_true (by with_unfolding_all rfl))).2 0
    (by with_unfolding_all rfl)
  exact ⟨h.1, h.2.2⟩

/-- Claim C4 (settled against the spec-modelled Gen 1 mixer, since
`gen1/sound.rs` is not in `src/`): the mixer constructs the noise
channel iterator with a length parameter of `0x100` instead of the
caller's length; and when every active pulse channel reports
`only_fadeout_left()` (the fade-out flag of a pulled frame is exactly
`only_fadeout_left()` of the pulled channel), the state the noise
channel is pulled from has had its pitch cleared to 0 via
`reset_pitch()`. -/
theorem c4_noise_length_and_pitch_reset :
    (∀ (snd : Sound) (pitch : Int) (length : Nat),
        (SoundIteratorG1.new snd pitch length).noise =
          snd.noise.map (fun c => ChannelIterator.new c.addr c.channel pitch 0x100)) ∧
    (∀ (noise : Option ChannelIterator) (c : ChannelIterator), noise = some c →
        g1NoiseInput noise true = some c.reset_pitch ∧ c.reset_pitch.pitch = 0) ∧
    (∀ (f : List ℚ) (c : ChannelIterator),
        PullRes.fadeout (.frame f c) = c.only_fadeout_left) := by
  refine ⟨fun snd pitch length => rfl, fun noise c h => ?_, fun f c => rfl⟩
  subst h
  exact ⟨rfl, rfl⟩

/-- Witness for C4 at a concrete noise channel with a nonzero pitch. -/
theorem c4_noise_length_and_pitch_reset_witness :
    g1NoiseInput (some (ChannelIterator.new 0 .SfxNoise 5 0x100)) true =
      some (ChannelIterator.new 0 .SfxNoise 5 0x100).reset_pitch ∧
    (ChannelIterator.new 0 .SfxNoise 5 0x100).reset_pitch.pitch = 0 :=
  c4_noise_length_and_pitch_reset.2.1 _ _ rfl
